import Mathlib

/-!
# Observability operator: staged reconcilers

Shallow embedding of the reconcilers of the observability operator
(`controllers/reconcilers/...`) over an explicit object-store client, and
theorems about the migration gate, the installation stage, the token stage and the
Grafana apply of the configuration stage.

The object store is a state machine `Client σ`: every call takes the store
state and returns an answer and the next state.  A `World` carries the store
state together with a ghost log of the calls made and their error outcomes, so
that "which calls were issued, in which order" is a property of the result.
-/

namespace ObsOperator

/-! ## Data model -/

/-- The stage outcomes of `v1.ObservabilityStageStatus`. -/
inductive StageStatus where
  | ResultSuccess
  | ResultFailed
  | ResultInProgress
  deriving DecidableEq, Repr

/-- Errors returned to a stage: those answered by the object store, by their status reason,
and `MutateKey`, the error of `CreateOrUpdate` when the mutation changed the object key. -/
inductive Err where
  | NotFound
  | AlreadyExists
  | Conflict
  | Other (code : Nat)
  | MutateKey
  deriving DecidableEq, Repr

/-- The test `errors.IsNotFound(err)`. -/
def IsNotFound : Err → Bool
  | .NotFound => true
  | _ => false

/-- The object kinds the reconcilers address (the Go static type of the object handed to the
client). -/
inductive Kind where
  | Prometheus
  | Alertmanager
  | Grafana
  | Route
  | Service
  | ServiceAccount
  | ClusterRole
  | ClusterRoleBinding
  | Secret
  | Subscription
  | OperatorGroup
  | CatalogSource
  | ClusterServiceVersion
  | Namespace
  | Deployment
  deriving DecidableEq, Repr

/-- The identity (kind, namespace, name) of an object of the store. -/
structure ObjectRef where
  Kind : Kind
  Namespace : String
  Name : String
  deriving DecidableEq, Repr

/-- The `metav1.ObjectMeta` fields the reconcilers use. -/
structure ObjectMeta where
  Name : String
  Namespace : String
  deriving DecidableEq, Repr

/-- The identity of an object of kind `kind` with this metadata. -/
def ObjectMeta.ref (kind : Kind) (meta : ObjectMeta) : ObjectRef :=
  ⟨kind, meta.Namespace, meta.Name⟩

/-- The `core.ResourceRequirements` of a subscription configuration. -/
structure ResourceRequirements where
  Limits : List (String × String)
  Requests : List (String × String)
  deriving DecidableEq, Repr

/-! ### The Grafana specification (`v1alpha1.GrafanaSpec`, the fields `grafana.go` writes) -/

/-- The type `core.Toleration`. -/
structure Toleration where
  Key : String
  Operator : String
  Value : String
  Effect : String
  TolerationSeconds : Option Int
  deriving DecidableEq, Repr

/-- The type `core.Affinity`, each of its three parts kept in serialized form. -/
structure Affinity where
  NodeAffinity : Option String
  PodAffinity : Option String
  PodAntiAffinity : Option String
  deriving DecidableEq, Repr

/-- The type `metav1.LabelSelectorRequirement`. -/
structure LabelSelectorRequirement where
  Key : String
  Operator : String
  Values : List String
  deriving DecidableEq, Repr

/-- The type `metav1.LabelSelector`. -/
structure LabelSelector where
  MatchLabels : List (String × String)
  MatchExpressions : List LabelSelectorRequirement
  deriving DecidableEq, Repr

/-- The type `v1alpha1.GrafanaConfigLog`. -/
structure GrafanaConfigLog where
  Mode : String
  Level : String
  deriving DecidableEq, Repr

/-- The type `v1alpha1.GrafanaConfigAuth`; a `*bool` is an `Option Bool`. -/
structure GrafanaConfigAuth where
  DisableLoginForm : Option Bool
  DisableSignoutMenu : Option Bool
  deriving DecidableEq, Repr

/-- The type `v1alpha1.GrafanaConfigAuthBasic`. -/
structure GrafanaConfigAuthBasic where
  Enabled : Option Bool
  deriving DecidableEq, Repr

/-- The type `v1alpha1.GrafanaConfigAuthAnonymous`. -/
structure GrafanaConfigAuthAnonymous where
  Enabled : Option Bool
  deriving DecidableEq, Repr

/-- The type `v1alpha1.GrafanaConfig`. -/
structure GrafanaConfig where
  Log : Option GrafanaConfigLog
  Auth : Option GrafanaConfigAuth
  AuthBasic : Option GrafanaConfigAuthBasic
  AuthAnonymous : Option GrafanaConfigAuthAnonymous
  deriving DecidableEq, Repr

/-- The type `core.ContainerPort`; `Port` is its field `ContainerPort`. -/
structure ContainerPort where
  Name : String
  Port : Int
  deriving DecidableEq, Repr

/-- The type `core.VolumeMount`. -/
structure VolumeMount where
  Name : String
  ReadOnly : Bool
  MountPath : String
  deriving DecidableEq, Repr

/-- The type `core.Container`. -/
structure Container where
  Name : String
  Image : String
  Args : List String
  Ports : List ContainerPort
  Resources : ResourceRequirements
  VolumeMounts : List VolumeMount
  deriving DecidableEq, Repr

/-- The type `v1alpha1.GrafanaIngress`. -/
structure GrafanaIngress where
  Enabled : Bool
  TargetPort : String
  Termination : String
  deriving DecidableEq, Repr

/-- The type `core.ServicePort`; the target port is the string of `intstr.FromString`. -/
structure ServicePort where
  Name : String
  Protocol : String
  Port : Int
  TargetPort : String
  deriving DecidableEq, Repr

/-- The type `v1alpha1.GrafanaService`; a map is the list of its entries. -/
structure GrafanaService where
  Annotations : List (String × String)
  Ports : List ServicePort
  deriving DecidableEq, Repr

/-- The type `v1alpha1.GrafanaServiceAccount`. -/
structure GrafanaServiceAccount where
  Annotations : List (String × String)
  deriving DecidableEq, Repr

/-- The type `v1alpha1.GrafanaClient`. -/
structure GrafanaClient where
  PreferService : Option Bool
  deriving DecidableEq, Repr

/-- The type `v1alpha1.GrafanaDeployment`; a nil slice or pointer is `none`. -/
structure GrafanaDeployment where
  Replicas : Option Int
  PriorityClassName : String
  Annotations : List (String × String)
  Tolerations : Option (List Toleration)
  Affinity : Option Affinity
  deriving DecidableEq, Repr

/-- The type `v1alpha1.GrafanaSpec`, with the fields the composite literal of
`reconcileGrafanaCr` sets; every other field has its zero value there. -/
structure GrafanaSpec where
  Config : GrafanaConfig
  Containers : List Container
  BaseImage : String
  DashboardLabelSelector : List (Option LabelSelector)
  Ingress : Option GrafanaIngress
  Secrets : List String
  Service : Option GrafanaService
  ServiceAccount : Option GrafanaServiceAccount
  Client : Option GrafanaClient
  Deployment : Option GrafanaDeployment
  Resources : Option ResourceRequirements
  deriving DecidableEq, Repr

/-- The specifications written by the installation and configuration stages; `Other` stands
for a specification the stage leaves as it finds it. -/
inductive Spec where
  | Other (fields : List (String × String))
  | CatalogSourceSpec (SourceType Image : String)
  | SubscriptionSpec (CatalogSource CatalogSourceNamespace Package Channel
      InstallPlanApproval StartingCSV : String) (Resources : ResourceRequirements)
  | OperatorGroupSpec (TargetNamespaces : List String)
  | GrafanaSpec (spec : GrafanaSpec)
  deriving DecidableEq, Repr

/-- An object as it is sent to and fetched from the store; its kind is the static type of
the variable that holds it. -/
structure Object where
  Namespace : String
  Name : String
  Spec : Spec
  deriving DecidableEq, Repr

/-- The identity of an object held in a variable of kind `kind`. -/
def Object.ref (kind : Kind) (o : Object) : ObjectRef := ⟨kind, o.Namespace, o.Name⟩

/-- An item of a list answer: a name and the `Status.ReadyReplicas` count. -/
structure ListItem where
  Name : String
  ReadyReplicas : Int
  deriving DecidableEq, Repr

/-- The fields of `v1.ObservabilitySpec` read by the migration gate. -/
structure ObservabilitySpec where
  PrometheusDefaultName : String
  AlertManagerDefaultName : String
  GrafanaDefaultName : String
  deriving DecidableEq, Repr

/-- The desired specification `v1.Observability`. -/
structure Observability where
  Name : String
  Namespace : String
  Spec : ObservabilitySpec
  deriving DecidableEq, Repr

/-- The part of `v1.ObservabilityStatus` the stages write. -/
structure ObservabilityStatus where
  Migrated : Bool
  deriving DecidableEq, Repr

/-- The declarations of the `model` and `api/v1` packages used by the reconcilers: object
constructors, legacy names and the predicates on the desired specification. They are
parameters of the embedding. -/
structure Model where
  PrometheusOldDefaultName : String
  AlertManagerOldDefaultName : String
  GrafanaOldDefaultName : String
  PromtailOldDefaultName : String
  HasAlertmanagerConfigSecret : Observability → Bool × String
  ExternalSyncDisabled : Observability → Bool
  ObservatoriumDisabled : Observability → Bool
  DescopedModeEnabled : Observability → Bool
  GetPrometheusOperatorNamespace : Observability → String
  GetPrometheus : Observability → ObjectMeta
  GetPrometheusRoute : Observability → ObjectMeta
  GetPrometheusService : Observability → ObjectMeta
  GetPrometheusServiceAccount : Observability → ObjectMeta
  GetPrometheusClusterRole : Observability → ObjectMeta
  GetPrometheusClusterRoleBinding : Observability → ObjectMeta
  GetAlertmanagerSecret : Observability → ObjectMeta
  GetAlertmanagerCr : Observability → ObjectMeta
  GetAlertmanagerServiceAccount : Observability → ObjectMeta
  GetAlertmanagerRoute : Observability → ObjectMeta
  GetAlertmanagerService : Observability → ObjectMeta
  GetAlertmanagerClusterRole : Observability → ObjectMeta
  GetAlertmanagerClusterRoleBinding : Observability → ObjectMeta
  GetGrafanaCr : Observability → ObjectMeta
  GetPromtailServiceAccount : Observability → ObjectMeta
  GetPromtailClusterRole : Observability → ObjectMeta
  GetPromtailClusterRoleBinding : Observability → ObjectMeta
  GetTokenSecret : Observability → String → ObjectMeta
  GetPrometheusSubscription : Observability → Object
  GetPrometheusOperatorgroup : Observability → Object
  GetPrometheusCatalogSource : Observability → Object
  GetPrometheusNamespace : Observability → Object
  GetPrometheusOperatorResourceRequirement : Observability → ResourceRequirements

/-! ## The object store client -/

/-- The object store as a state machine over `σ` (`client.Client`): an answer `none` of a
write is success. -/
structure Client (σ : Type) where
  Get : σ → ObjectRef → Except Err Object × σ
  List : σ → Kind → String → Except Err (List ListItem) × σ
  Create : σ → Kind → Object → Option Err × σ
  Update : σ → Kind → Object → Option Err × σ
  Delete : σ → ObjectRef → Option Err × σ

/-- A call on the store. -/
inductive Call where
  | Get (ref : ObjectRef)
  | List (kind : Kind) (ns : String)
  | Create (ref : ObjectRef)
  | Update (ref : ObjectRef)
  | Delete (ref : ObjectRef)
  deriving DecidableEq, Repr

/-- A call and the error it was answered with (`none`: no error). -/
structure Event where
  call : Call
  err : Option Err
  deriving DecidableEq, Repr

/-- The store state and the log of the calls issued so far, oldest first. -/
structure World (σ : Type) where
  state : σ
  log : List Event

/-- The world at the start of a tick: nothing issued yet. -/
def World.init {σ : Type} (st : σ) : World σ := ⟨st, []⟩

/-- The call `r.client.Delete(ctx, obj)`, logged. -/
def callDelete {σ : Type} (c : Client σ) (w : World σ) (ref : ObjectRef) :
    Option Err × World σ :=
  let r := c.Delete w.state ref
  (r.1, ⟨r.2, w.log ++ [⟨.Delete ref, r.1⟩]⟩)

/-- The error of a read answer. -/
def errOf {α : Type} : Except Err α → Option Err
  | .error e => some e
  | .ok _ => none

/-- The call `r.client.List(ctx, list, opts)` with `opts.Namespace = ns`, logged. -/
def callList {σ : Type} (c : Client σ) (w : World σ) (kind : Kind) (ns : String) :
    Except Err (List ListItem) × World σ :=
  let r := c.List w.state kind ns
  (r.1, ⟨r.2, w.log ++ [⟨.List kind ns, errOf r.1⟩]⟩)

/-- The call `r.client.Get(ctx, key, obj)`, logged. -/
def callGet {σ : Type} (c : Client σ) (w : World σ) (ref : ObjectRef) :
    Except Err Object × World σ :=
  let r := c.Get w.state ref
  (r.1, ⟨r.2, w.log ++ [⟨.Get ref, errOf r.1⟩]⟩)

/-- The call `r.client.Create(ctx, obj)`, logged. -/
def callCreate {σ : Type} (c : Client σ) (w : World σ) (kind : Kind) (o : Object) :
    Option Err × World σ :=
  let r := c.Create w.state kind o
  (r.1, ⟨r.2, w.log ++ [⟨.Create (o.ref kind), r.1⟩]⟩)

/-- The call `r.client.Update(ctx, obj)`, logged. -/
def callUpdate {σ : Type} (c : Client σ) (w : World σ) (kind : Kind) (o : Object) :
    Option Err × World σ :=
  let r := c.Update w.state kind o
  (r.1, ⟨r.2, w.log ++ [⟨.Update (o.ref kind), r.1⟩]⟩)

/-- What a stage function returns: the pair `(status, err)` and the world it leaves. -/
structure Outcome (σ : Type) where
  status : StageStatus
  err : Option Err
  world : World σ

/-- The test `err != nil && !errors.IsNotFound(err)` guarding every delete. -/
def deleteFailed : Option Err → Bool
  | some e => !IsNotFound e
  | none => false

/-! ## The migration gate (`migration/resource_name_migration.go`) -/

/-- What `migration.Reconciler.Reconcile` returns and leaves in `*s`. -/
structure MigrationOutcome (σ : Type) where
  status : StageStatus
  err : Option Err
  s : ObservabilityStatus
  world : World σ

/-- The statement pair `err := r.client.Delete(ctx, obj)`,
`if err != nil && !errors.IsNotFound(err) { return v1.ResultFailed, err }`, followed by the
rest `k` of the function body. -/
def deleteOrReturn {σ : Type} (c : Client σ) (s : ObservabilityStatus) (ref : ObjectRef)
    (w : World σ) (k : World σ → MigrationOutcome σ) : MigrationOutcome σ :=
  let r := callDelete c w ref
  if deleteFailed r.1 then ⟨.ResultFailed, r.1, s, r.2⟩ else k r.2

/-- Modelled from the spec: `utils.WaitForPrometheusToBeRemoved`, `WaitForAlertmanagerToBeRemoved`
and `WaitForGrafanaToBeRemoved` are not among the sources. By sections 4.2 and 4.4 such a check
makes one non-blocking observation of the workload's managed instances (one List of the
workload kind in the namespace of the desired specification): `ResultSuccess` when none is
left, `ResultInProgress` otherwise, `ResultFailed` with the error when the List fails. -/
def WaitForRemoved {σ : Type} (c : Client σ) (kind : Kind) (cr : Observability)
    (w : World σ) : Outcome σ :=
  let r := callList c w kind cr.Namespace
  match r.1 with
  | .error e => ⟨.ResultFailed, some e, r.2⟩
  | .ok items => if items.isEmpty then ⟨.ResultSuccess, none, r.2⟩
                 else ⟨.ResultInProgress, none, r.2⟩

/-- The check `utils.WaitForPrometheusToBeRemoved(ctx, cr, r.client)`. -/
def WaitForPrometheusToBeRemoved {σ : Type} (c : Client σ) (cr : Observability)
    (w : World σ) : Outcome σ :=
  WaitForRemoved c .Prometheus cr w

/-- The check `utils.WaitForAlertmanagerToBeRemoved(ctx, cr, r.client)`. -/
def WaitForAlertmanagerToBeRemoved {σ : Type} (c : Client σ) (cr : Observability)
    (w : World σ) : Outcome σ :=
  WaitForRemoved c .Alertmanager cr w

/-- The check `utils.WaitForGrafanaToBeRemoved(ctx, cr, r.client)`. -/
def WaitForGrafanaToBeRemoved {σ : Type} (c : Client σ) (cr : Observability)
    (w : World σ) : Outcome σ :=
  WaitForRemoved c .Grafana cr w

/-- The object `obj := model.GetX(cr); obj.Name = name` of static type `kind`. -/
def renamed (kind : Kind) (meta : ObjectMeta) (name : String) : ObjectRef :=
  ⟨kind, meta.Namespace, name⟩

/-- The Prometheus block of `Reconcile` (lines 39-85), followed by `k`. The result of the
removal check on line 49 is discarded by the source; only its store call is kept. -/
def reconcilePrometheus {σ : Type} (c : Client σ) (m : Model) (cr : Observability)
    (s : ObservabilityStatus) (w : World σ) (k : World σ → MigrationOutcome σ) :
    MigrationOutcome σ :=
  if cr.Spec.PrometheusDefaultName = "" then
    deleteOrReturn c s (renamed .Prometheus (m.GetPrometheus cr) m.PrometheusOldDefaultName) w
      fun w =>
    let w := (WaitForPrometheusToBeRemoved c cr w).world
    deleteOrReturn c s (renamed .Route (m.GetPrometheusRoute cr) m.PrometheusOldDefaultName) w
      fun w =>
    deleteOrReturn c s (renamed .Service (m.GetPrometheusService cr) m.PrometheusOldDefaultName) w
      fun w =>
    deleteOrReturn c s (renamed .ServiceAccount (m.GetPrometheusServiceAccount cr)
      m.PrometheusOldDefaultName) w fun w =>
    deleteOrReturn c s (renamed .ClusterRole (m.GetPrometheusClusterRole cr)
      m.PrometheusOldDefaultName) w fun w =>
    deleteOrReturn c s (renamed .ClusterRoleBinding (m.GetPrometheusClusterRoleBinding cr)
      m.PrometheusOldDefaultName) w k
  else k w

/-- The Alertmanager block of `Reconcile` (lines 88-143), followed by `k`. -/
def reconcileAlertmanager {σ : Type} (c : Client σ) (m : Model) (cr : Observability)
    (s : ObservabilityStatus) (w : World σ) (k : World σ → MigrationOutcome σ) :
    MigrationOutcome σ :=
  if cr.Spec.AlertManagerDefaultName = "" then
    let overrideSecret := (m.HasAlertmanagerConfigSecret cr).1
    let rest : World σ → MigrationOutcome σ := fun w =>
      deleteOrReturn c s (renamed .Alertmanager (m.GetAlertmanagerCr cr)
        m.AlertManagerOldDefaultName) w fun w =>
      let w := (WaitForAlertmanagerToBeRemoved c cr w).world
      deleteOrReturn c s (renamed .ServiceAccount (m.GetAlertmanagerServiceAccount cr)
        m.AlertManagerOldDefaultName) w fun w =>
      deleteOrReturn c s (renamed .Route (m.GetAlertmanagerRoute cr)
        m.AlertManagerOldDefaultName) w fun w =>
      deleteOrReturn c s (renamed .Service (m.GetAlertmanagerService cr)
        m.AlertManagerOldDefaultName) w fun w =>
      deleteOrReturn c s (renamed .ClusterRole (m.GetAlertmanagerClusterRole cr)
        m.AlertManagerOldDefaultName) w fun w =>
      deleteOrReturn c s (renamed .ClusterRoleBinding (m.GetAlertmanagerClusterRoleBinding cr)
        m.AlertManagerOldDefaultName) w k
    if !overrideSecret && !m.ExternalSyncDisabled cr then
      deleteOrReturn c s (renamed .Secret (m.GetAlertmanagerSecret cr)
        ("alertmanager-" ++ m.AlertManagerOldDefaultName)) w rest
    else rest w
  else k w

/-- The Grafana block of `Reconcile` (lines 146-156), followed by `k`. -/
def reconcileGrafana {σ : Type} (c : Client σ) (m : Model) (cr : Observability)
    (s : ObservabilityStatus) (w : World σ) (k : World σ → MigrationOutcome σ) :
    MigrationOutcome σ :=
  if cr.Spec.GrafanaDefaultName = "" then
    deleteOrReturn c s (renamed .Grafana (m.GetGrafanaCr cr) m.GrafanaOldDefaultName) w
      fun w =>
    k (WaitForGrafanaToBeRemoved c cr w).world
  else k w

/-- The Promtail block of `Reconcile` (lines 159-181), followed by `k`. -/
def reconcilePromtail {σ : Type} (c : Client σ) (m : Model) (cr : Observability)
    (s : ObservabilityStatus) (w : World σ) (k : World σ → MigrationOutcome σ) :
    MigrationOutcome σ :=
  if !m.ExternalSyncDisabled cr || !m.ObservatoriumDisabled cr then
    deleteOrReturn c s (renamed .ServiceAccount (m.GetPromtailServiceAccount cr)
      m.PromtailOldDefaultName) w fun w =>
    deleteOrReturn c s (renamed .ClusterRole (m.GetPromtailClusterRole cr)
      m.PromtailOldDefaultName) w fun w =>
    deleteOrReturn c s (renamed .ClusterRoleBinding (m.GetPromtailClusterRoleBinding cr)
      m.PromtailOldDefaultName) w k
  else k w

namespace migration

/-- The function `migration.Reconciler.Reconcile`: nothing on a migrated status; otherwise the
four teardown blocks in source order, then `s.Migrated = true` and `(ResultSuccess, nil)`. -/
def Reconcile {σ : Type} (c : Client σ) (m : Model) (cr : Observability)
    (s : ObservabilityStatus) (w : World σ) : MigrationOutcome σ :=
  if s.Migrated then ⟨.ResultSuccess, none, s, w⟩
  else
    reconcilePrometheus c m cr s w fun w =>
    reconcileAlertmanager c m cr s w fun w =>
    reconcileGrafana c m cr s w fun w =>
    reconcilePromtail c m cr s w fun w =>
    ⟨.ResultSuccess, none, { s with Migrated := true }, w⟩

end migration

/-! ## The create-or-update primitive -/

/-- The library function `controllerutil.CreateOrUpdate(ctx, c, obj, f)` of controller-runtime,
which every apply of a stage calls: one Get by the key of `obj`; on NotFound the mutation `f`
and one Create; on another Get error that error; on success the mutation of the fetched
object and, unless the mutation changed nothing, one Update. The mutation must keep the key
(`MutateKey` otherwise). Any error of Create or Update, a conflict included, is returned as
it is: the function has no loop. Returns the error and the object as `obj` is left. -/
def CreateOrUpdate {σ : Type} (c : Client σ) (kind : Kind) (obj : Object)
    (f : Object → Object) (w : World σ) : Option Err × World σ :=
  let key := obj.ref kind
  let r := callGet c w key
  match r.1 with
  | .error e =>
    if !IsNotFound e then (some e, r.2)
    else if (f obj).ref kind ≠ key then (some .MutateKey, r.2)
    else callCreate c r.2 kind (f obj)
  | .ok existing =>
    if (f existing).ref kind ≠ key then (some .MutateKey, r.2)
    else if existing = f existing then (none, r.2)
    else callUpdate c r.2 kind (f existing)

/-- The tail `if err != nil { return v1.ResultFailed, err }; return v1.ResultSuccess, nil` of
the apply functions. -/
def failedOrSuccess {σ : Type} (r : Option Err × World σ) : Outcome σ :=
  match r.1 with
  | some e => ⟨.ResultFailed, some e, r.2⟩
  | none => ⟨.ResultSuccess, none, r.2⟩

/-- The statement pair `err := r.client.Delete(ctx, obj)`,
`if err != nil && !errors.IsNotFound(err) { return v1.ResultFailed, err }` of the cleanup
functions, followed by the rest `k` of the body. -/
def deleteOrFail {σ : Type} (c : Client σ) (ref : ObjectRef) (w : World σ)
    (k : World σ → Outcome σ) : Outcome σ :=
  let r := callDelete c w ref
  if deleteFailed r.1 then ⟨.ResultFailed, r.1, r.2⟩ else k r.2

/-! ## The installation stage (`prometheus_installation_reconciler.go`) -/

namespace prometheus_installation

/-- The function `Reconciler.Cleanup`: subscription, operator group, catalog source and, in
descoped mode, the namespace are deleted, each delete tolerating NotFound. -/
def Cleanup {σ : Type} (c : Client σ) (m : Model) (cr : Observability) (w : World σ) :
    Outcome σ :=
  deleteOrFail c ((m.GetPrometheusSubscription cr).ref .Subscription) w fun w =>
  deleteOrFail c ((m.GetPrometheusOperatorgroup cr).ref .OperatorGroup) w fun w =>
  deleteOrFail c ((m.GetPrometheusCatalogSource cr).ref .CatalogSource) w fun w =>
  if m.DescopedModeEnabled cr then
    deleteOrFail c ((m.GetPrometheusNamespace cr).ref .Namespace) w fun w =>
    ⟨.ResultSuccess, none, w⟩
  else ⟨.ResultSuccess, none, w⟩

/-- The loop of `waitForPrometheusOperator` over `deployments.Items`: true as soon as a
deployment named "prometheus-operator" has `ReadyReplicas > 0`. -/
def operatorReady : List ListItem → Bool
  | [] => false
  | deployment :: rest =>
    if deployment.Name = "prometheus-operator" then
      if deployment.ReadyReplicas > 0 then true else operatorReady rest
    else operatorReady rest

/-- The function `Reconciler.waitForPrometheusOperator`. -/
def waitForPrometheusOperator {σ : Type} (c : Client σ) (m : Model) (cr : Observability)
    (w : World σ) : Outcome σ :=
  let r := callList c w .Deployment (m.GetPrometheusOperatorNamespace cr)
  match r.1 with
  | .error e => ⟨.ResultFailed, some e, r.2⟩
  | .ok deployments =>
    if operatorReady deployments then ⟨.ResultSuccess, none, r.2⟩
    else ⟨.ResultInProgress, none, r.2⟩

/-- The function `Reconciler.reconcileNamespace`: the mutation changes nothing. -/
def reconcileNamespace {σ : Type} (c : Client σ) (m : Model) (cr : Observability)
    (w : World σ) : Outcome σ :=
  failedOrSuccess (CreateOrUpdate c .Namespace (m.GetPrometheusNamespace cr) (fun o => o) w)

/-- The function `Reconciler.removePrometheusOperatorResources`. -/
def removePrometheusOperatorResources {σ : Type} (c : Client σ) (m : Model)
    (cr : Observability) (w : World σ) : Option Err × World σ :=
  let r := callDelete c w
    ⟨.Subscription, m.GetPrometheusOperatorNamespace cr, "prometheus-subscription"⟩
  if deleteFailed r.1 then (r.1, r.2)
  else
    let r := callDelete c r.2
      ⟨.ClusterServiceVersion, m.GetPrometheusOperatorNamespace cr, "prometheusoperator.0.56.3"⟩
    if deleteFailed r.1 then (r.1, r.2) else (none, r.2)

/-- The mutation of `reconcileCatalogSource`. -/
def catalogSourceMutate (source : Object) : Object :=
  { source with
    Spec := Spec.CatalogSourceSpec "grpc" "quay.io/integreatly/custom-prometheus-index:1.0.0" }

/-- The function `Reconciler.reconcileCatalogSource`: a Get of "prometheus-catalogsource";
on NotFound the stale operator resources are removed first; then the catalog source is
applied (on the fetched object when the Get succeeded). -/
def reconcileCatalogSource {σ : Type} (c : Client σ) (m : Model) (cr : Observability)
    (w : World σ) : Outcome σ :=
  let source : Object :=
    ⟨m.GetPrometheusOperatorNamespace cr, "prometheus-catalogsource", .CatalogSourceSpec "" ""⟩
  let r := callGet c w (source.ref .CatalogSource)
  match r.1 with
  | .error e =>
    if !IsNotFound e then ⟨.ResultFailed, some e, r.2⟩
    else
      let r1 := removePrometheusOperatorResources c m cr r.2
      match r1.1 with
      | some e1 => ⟨.ResultFailed, some e1, r1.2⟩
      | none => failedOrSuccess (CreateOrUpdate c .CatalogSource source catalogSourceMutate r1.2)
  | .ok live => failedOrSuccess (CreateOrUpdate c .CatalogSource live catalogSourceMutate r.2)

/-- The mutation of `reconcileSubscription`. -/
def subscriptionMutate (m : Model) (cr : Observability) (subscription : Object) : Object :=
  { subscription with
    Spec := Spec.SubscriptionSpec (m.GetPrometheusCatalogSource cr).Name
      (m.GetPrometheusOperatorNamespace cr) "prometheus" "preview" "Automatic" ""
      (m.GetPrometheusOperatorResourceRequirement cr) }

/-- The function `Reconciler.reconcileSubscription`. -/
def reconcileSubscription {σ : Type} (c : Client σ) (m : Model) (cr : Observability)
    (w : World σ) : Outcome σ :=
  failedOrSuccess
    (CreateOrUpdate c .Subscription (m.GetPrometheusSubscription cr) (subscriptionMutate m cr) w)

/-- The mutation of `reconcileOperatorgroup`. -/
def operatorgroupMutate (m : Model) (cr : Observability) (operatorgroup : Object) : Object :=
  { operatorgroup with Spec := Spec.OperatorGroupSpec [m.GetPrometheusOperatorNamespace cr] }

/-- The function `Reconciler.reconcileOperatorgroup`. The helper
`utils.HasOperatorGroupForNamespace(ctx, r.client, cr.Namespace)` is the parameter `hasOG`. -/
def reconcileOperatorgroup {σ : Type} (c : Client σ) (m : Model)
    (hasOG : World σ → String → Except Err Bool × World σ) (cr : Observability)
    (w : World σ) : Outcome σ :=
  let r := hasOG w cr.Namespace
  match r.1 with
  | .error e => ⟨.ResultFailed, some e, r.2⟩
  | .ok true => ⟨.ResultSuccess, none, r.2⟩
  | .ok false =>
    failedOrSuccess (CreateOrUpdate c .OperatorGroup (m.GetPrometheusOperatorgroup cr)
      (operatorgroupMutate m cr) r.2)

/-- The sub-steps of `Reconcile` after the namespace step (lines 76-99). -/
def reconcileRest {σ : Type} (c : Client σ) (m : Model)
    (hasOG : World σ → String → Except Err Bool × World σ) (cr : Observability)
    (w : World σ) : Outcome σ :=
  let r1 := reconcileCatalogSource c m cr w
  if r1.status ≠ .ResultSuccess then r1
  else
    let r2 := reconcileSubscription c m cr r1.world
    if r2.status ≠ .ResultSuccess then r2
    else
      let r3 := reconcileOperatorgroup c m hasOG cr r2.world
      if r3.status ≠ .ResultSuccess then r3
      else
        let r4 := waitForPrometheusOperator c m cr r3.world
        if r4.status ≠ .ResultSuccess then r4
        else ⟨.ResultSuccess, none, r4.world⟩

/-- The function `prometheus_installation.Reconciler.Reconcile`: in descoped mode the
namespace step first, which ends the tick when its error is not nil. -/
def Reconcile {σ : Type} (c : Client σ) (m : Model)
    (hasOG : World σ → String → Except Err Bool × World σ) (cr : Observability)
    (w : World σ) : Outcome σ :=
  if m.DescopedModeEnabled cr then
    let r0 := reconcileNamespace c m cr w
    if r0.err ≠ none then r0 else reconcileRest c m hasOG cr r0.world
  else reconcileRest c m hasOG cr w

end prometheus_installation

/-! ## The token stage (`token_reconciler.go`) -/

namespace token

/-- The function `token.Reconciler.Cleanup`: the secret "observatorium-credentials" is deleted,
NotFound tolerated. -/
def Cleanup {σ : Type} (c : Client σ) (m : Model) (cr : Observability) (w : World σ) :
    Outcome σ :=
  deleteOrFail c ((m.GetTokenSecret cr "observatorium-credentials").ref .Secret) w fun w =>
  ⟨.ResultSuccess, none, w⟩

/-- The function `token.Reconciler.Reconcile`. -/
def Reconcile {σ : Type} (_c : Client σ) (_cr : Observability) (_s : ObservabilityStatus)
    (w : World σ) : Outcome σ :=
  ⟨.ResultSuccess, none, w⟩

end token

/-! ## The Grafana apply of the configuration stage (`configuration/grafana.go`) -/

/-- A repository index (`v1.RepositoryIndex`); the Grafana apply hands the indexes to the
model helpers and reads nothing of them itself. -/
structure RepositoryIndex where
  Id : String
  Config : List (String × String)
  deriving DecidableEq, Repr

/-- The declarations used by `reconcileGrafanaCr` that are not among the sources, as
parameters: the specification carried by the object `model.GetGrafanaCr(cr)`, the helpers
`model.GetGrafanaVersion`, `model.GetGrafanaDashboardLabelSelectors` and
`model.GetGrafanaResourceRequirement`, the constant `model.ObservabilityPriorityClassName`,
the fields `cr.Spec.Tolerations` and `cr.Spec.Affinity`, and the library call
`semver.ParseTolerant`, given by the pair of `specVer.String()` and `verError == nil`. -/
structure GrafanaModel where
  GetGrafanaCrSpec : Observability → Spec
  GetGrafanaVersion : List RepositoryIndex → Observability → String
  ParseTolerant : String → String × Bool
  GetGrafanaDashboardLabelSelectors : Observability → List RepositoryIndex → Option LabelSelector
  ObservabilityPriorityClassName : String
  GetGrafanaResourceRequirement : Observability → Option ResourceRequirements
  Tolerations : Observability → Option (List Toleration)
  Affinity : Observability → Option Affinity

namespace configuration

/-- The constant `GrafanaBaseImage`. -/
def GrafanaBaseImage : String := "docker.io/grafana/grafana:"

/-- The local `GrafanaImage` of `reconcileGrafanaCr` (lines 27-31): the base image followed by
the parsed version, or the empty string when the version is "0.0.0" or does not parse. -/
def GrafanaImage (g : GrafanaModel) (cr : Observability) (indexes : List RepositoryIndex) :
    String :=
  let parsed := g.ParseTolerant (g.GetGrafanaVersion indexes cr)
  if parsed.1 ≠ "0.0.0" ∧ parsed.2 = true then GrafanaBaseImage ++ parsed.1 else ""

/-- The assignment `grafana.Spec = v1alpha1.GrafanaSpec{...}` of the mutation (lines 34-137):
the composite literal. -/
def grafanaSpecLiteral (g : GrafanaModel) (cr : Observability)
    (indexes : List RepositoryIndex) : GrafanaSpec where
  Config :=
    { Log := some { Mode := "console", Level := "warn" }
      Auth := some { DisableLoginForm := some false, DisableSignoutMenu := some true }
      AuthBasic := some { Enabled := some true }
      AuthAnonymous := some { Enabled := some true } }
  Containers :=
    [{ Name := "grafana-proxy"
       Image := "quay.io/openshift/origin-oauth-proxy:4.8"
       Args :=
        ["-provider=openshift",
         "-pass-basic-auth=false",
         "-https-address=:9091",
         "-http-address=",
         "-email-domain=*",
         "-upstream=http://localhost:3000",
         "-openshift-sar=\x7b\"resource\": \"namespaces\", \"verb\": \"get\"\x7d",
         "-openshift-delegate-urls=\x7b\"/\": \x7b\"resource\": \"namespaces\", \"verb\": \"get\"\x7d\x7d",
         "-tls-cert=/etc/tls/private/tls.crt",
         "-tls-key=/etc/tls/private/tls.key",
         "-client-secret-file=/var/run/secrets/kubernetes.io/serviceaccount/token",
         "-cookie-secret-file=/etc/proxy/secrets/session_secret",
         "-openshift-service-account=grafana-serviceaccount",
         "-openshift-ca=/etc/pki/tls/cert.pem",
         "-openshift-ca=/var/run/secrets/kubernetes.io/serviceaccount/ca.crt",
         "-skip-auth-regex=^/metrics"]
       Ports := [{ Name := "grafana-proxy", Port := 9091 }]
       Resources := { Limits := [], Requests := [] }
       VolumeMounts :=
        [{ Name := "secret-grafana-k8s-tls", ReadOnly := false, MountPath := "/etc/tls/private" },
         { Name := "secret-grafana-k8s-proxy", ReadOnly := false,
           MountPath := "/etc/proxy/secrets" }] }]
  BaseImage := GrafanaImage g cr indexes
  DashboardLabelSelector := [g.GetGrafanaDashboardLabelSelectors cr indexes]
  Ingress := some { Enabled := true, TargetPort := "grafana-proxy", Termination := "reencrypt" }
  Secrets := ["grafana-k8s-tls", "grafana-k8s-proxy"]
  Service :=
    some { Annotations := [("service.alpha.openshift.io/serving-cert-secret-name", "grafana-k8s-tls")]
           Ports := [{ Name := "grafana-proxy", Protocol := "TCP", Port := 9091,
                       TargetPort := "grafana-proxy" }] }
  ServiceAccount :=
    some { Annotations :=
      [("serviceaccounts.openshift.io/oauth-redirectreference.primary",
        "\x7b\"kind\":\"OAuthRedirectReference\",\"apiVersion\":\"v1\",\"reference\":\x7b\"kind\":\"Route\",\"name\":\"grafana-route\"\x7d\x7d")] }
  Client := some { PreferService := some true }
  Deployment :=
    some { Replicas := some 1
           PriorityClassName := g.ObservabilityPriorityClassName
           Annotations := [("cluster-autoscaler.kubernetes.io/safe-to-evict", "true")]
           Tolerations := none
           Affinity := none }
  Resources := g.GetGrafanaResourceRequirement cr

/-- A write `grafana.Spec.Deployment.X = v` through the `Deployment` pointer of the object:
the deployment of a Grafana specification is replaced by `f` of it. -/
def setDeployment (f : GrafanaDeployment → GrafanaDeployment) (grafana : Object) : Object :=
  match grafana.Spec with
  | .GrafanaSpec spec =>
    { grafana with Spec := .GrafanaSpec { spec with Deployment := spec.Deployment.map f } }
  | _ => grafana

/-- The mutate closure handed to `CreateOrUpdate` by `reconcileGrafanaCr` (lines 33-146): the
specification is assigned the literal, then the tolerations and the affinity of the desired
specification are written to the deployment when they are not nil. -/
def grafanaMutate (g : GrafanaModel) (cr : Observability) (indexes : List RepositoryIndex)
    (grafana : Object) : Object :=
  let grafana := { grafana with Spec := Spec.GrafanaSpec (grafanaSpecLiteral g cr indexes) }
  let grafana :=
    if g.Tolerations cr ≠ none then
      setDeployment (fun d => { d with Tolerations := g.Tolerations cr }) grafana
    else grafana
  let grafana :=
    if g.Affinity cr ≠ none then
      setDeployment (fun d => { d with Affinity := g.Affinity cr }) grafana
    else grafana
  grafana

/-- The function `Reconciler.reconcileGrafanaCr`: the apply of the Grafana object, whose error
is returned as it is. -/
def reconcileGrafanaCr {σ : Type} (c : Client σ) (m : Model) (g : GrafanaModel)
    (cr : Observability) (indexes : List RepositoryIndex) (w : World σ) :
    Option Err × World σ :=
  let grafana : Object :=
    ⟨(m.GetGrafanaCr cr).Namespace, (m.GetGrafanaCr cr).Name, g.GetGrafanaCrSpec cr⟩
  CreateOrUpdate c .Grafana grafana (grafanaMutate g cr indexes) w

end configuration

/-! ## Concrete instances -/

/-- A model instance: legacy names, every object in the namespace of the desired
specification, external sync and Observatorium enabled, no override secret. -/
def sampleModel : Model where
  PrometheusOldDefaultName := "kafka-prometheus"
  AlertManagerOldDefaultName := "kafka-alertmanager"
  GrafanaOldDefaultName := "kafka-grafana"
  PromtailOldDefaultName := "kafka-promtail"
  HasAlertmanagerConfigSecret := fun _ => (false, "")
  ExternalSyncDisabled := fun _ => false
  ObservatoriumDisabled := fun _ => false
  DescopedModeEnabled := fun _ => false
  GetPrometheusOperatorNamespace := fun cr => cr.Namespace
  GetPrometheus := fun cr => ⟨"prometheus", cr.Namespace⟩
  GetPrometheusRoute := fun cr => ⟨"prometheus", cr.Namespace⟩
  GetPrometheusService := fun cr => ⟨"prometheus", cr.Namespace⟩
  GetPrometheusServiceAccount := fun cr => ⟨"prometheus", cr.Namespace⟩
  GetPrometheusClusterRole := fun _ => ⟨"prometheus", ""⟩
  GetPrometheusClusterRoleBinding := fun _ => ⟨"prometheus", ""⟩
  GetAlertmanagerSecret := fun cr => ⟨"alertmanager", cr.Namespace⟩
  GetAlertmanagerCr := fun cr => ⟨"alertmanager", cr.Namespace⟩
  GetAlertmanagerServiceAccount := fun cr => ⟨"alertmanager", cr.Namespace⟩
  GetAlertmanagerRoute := fun cr => ⟨"alertmanager", cr.Namespace⟩
  GetAlertmanagerService := fun cr => ⟨"alertmanager", cr.Namespace⟩
  GetAlertmanagerClusterRole := fun _ => ⟨"alertmanager", ""⟩
  GetAlertmanagerClusterRoleBinding := fun _ => ⟨"alertmanager", ""⟩
  GetGrafanaCr := fun cr => ⟨"grafana", cr.Namespace⟩
  GetPromtailServiceAccount := fun cr => ⟨"promtail", cr.Namespace⟩
  GetPromtailClusterRole := fun _ => ⟨"promtail", ""⟩
  GetPromtailClusterRoleBinding := fun _ => ⟨"promtail", ""⟩
  GetTokenSecret := fun cr name => ⟨name, cr.Namespace⟩
  GetPrometheusSubscription := fun cr => ⟨cr.Namespace, "prometheus-subscription", .Other []⟩
  GetPrometheusOperatorgroup := fun cr => ⟨cr.Namespace, "observability-operatorgroup", .Other []⟩
  GetPrometheusCatalogSource := fun cr => ⟨cr.Namespace, "prometheus-catalogsource", .Other []⟩
  GetPrometheusNamespace := fun cr => ⟨"", cr.Namespace, .Other []⟩
  GetPrometheusOperatorResourceRequirement := fun _ => ⟨[], []⟩

/-- A desired specification with no default name set: every subsystem is to be migrated. -/
def sampleCr : Observability := ⟨"observability", "obs", ⟨"", "", ""⟩⟩

/-- A desired specification that names Prometheus and Grafana: only Alertmanager is left to
migrate among these three. -/
def alertmanagerOnlyCr : Observability := ⟨"observability", "obs", ⟨"p", "", "g"⟩⟩

/-- A desired specification that names Alertmanager and Grafana: only Prometheus is left to
migrate among these three. -/
def prometheusOnlyCr : Observability := ⟨"observability", "obs", ⟨"", "a", "g"⟩⟩

/-- The model instance with external sync and Observatorium disabled: the Promtail block and
the Alertmanager config secret are skipped. -/
def selfContainedModel : Model :=
  { sampleModel with
    ExternalSyncDisabled := fun _ => true
    ObservatoriumDisabled := fun _ => true }

/-- A stateless store in which the delete of `bad` is answered with `e`, every other write
succeeds, every Get is answered NotFound and every List is empty. -/
def faultyClient (bad : ObjectRef) (e : Err) : Client Unit where
  Get := fun _ _ => (.error .NotFound, ())
  List := fun _ _ _ => (.ok [], ())
  Create := fun _ _ _ => (none, ())
  Update := fun _ _ _ => (none, ())
  Delete := fun _ ref => (if ref = bad then some e else none, ())

/-- A stateless store in which every delete succeeds and every removal check still sees an
instance (every List is answered with one item). -/
def lingeringClient : Client Unit where
  Get := fun _ _ => (.error .NotFound, ())
  List := fun _ _ _ => (.ok [⟨"instance-0", 1⟩], ())
  Create := fun _ _ _ => (none, ())
  Update := fun _ _ _ => (none, ())
  Delete := fun _ _ => (none, ())

/-! ## The teardown as a list of steps -/

/-- A step of the teardown: a tolerant delete, or a removal check whose result is dropped. -/
inductive Step where
  | del (ref : ObjectRef)
  | wait (kind : Kind)
  deriving DecidableEq, Repr

/-- The steps of the Prometheus block, in source order. -/
def prometheusSteps (m : Model) (cr : Observability) : List Step :=
  if cr.Spec.PrometheusDefaultName = "" then
    [.del (renamed .Prometheus (m.GetPrometheus cr) m.PrometheusOldDefaultName),
     .wait .Prometheus,
     .del (renamed .Route (m.GetPrometheusRoute cr) m.PrometheusOldDefaultName),
     .del (renamed .Service (m.GetPrometheusService cr) m.PrometheusOldDefaultName),
     .del (renamed .ServiceAccount (m.GetPrometheusServiceAccount cr)
       m.PrometheusOldDefaultName),
     .del (renamed .ClusterRole (m.GetPrometheusClusterRole cr) m.PrometheusOldDefaultName),
     .del (renamed .ClusterRoleBinding (m.GetPrometheusClusterRoleBinding cr)
       m.PrometheusOldDefaultName)]
  else []

/-- The steps of the Alertmanager block, in source order. -/
def alertmanagerSteps (m : Model) (cr : Observability) : List Step :=
  if cr.Spec.AlertManagerDefaultName = "" then
    (if !(m.HasAlertmanagerConfigSecret cr).1 && !m.ExternalSyncDisabled cr then
      [.del (renamed .Secret (m.GetAlertmanagerSecret cr)
        ("alertmanager-" ++ m.AlertManagerOldDefaultName))]
     else []) ++
    [.del (renamed .Alertmanager (m.GetAlertmanagerCr cr) m.AlertManagerOldDefaultName),
     .wait .Alertmanager,
     .del (renamed .ServiceAccount (m.GetAlertmanagerServiceAccount cr)
       m.AlertManagerOldDefaultName),
     .del (renamed .Route (m.GetAlertmanagerRoute cr) m.AlertManagerOldDefaultName),
     .del (renamed .Service (m.GetAlertmanagerService cr) m.AlertManagerOldDefaultName),
     .del (renamed .ClusterRole (m.GetAlertmanagerClusterRole cr)
       m.AlertManagerOldDefaultName),
     .del (renamed .ClusterRoleBinding (m.GetAlertmanagerClusterRoleBinding cr)
       m.AlertManagerOldDefaultName)]
  else []

/-- The steps of the Grafana block, in source order. -/
def grafanaSteps (m : Model) (cr : Observability) : List Step :=
  if cr.Spec.GrafanaDefaultName = "" then
    [.del (renamed .Grafana (m.GetGrafanaCr cr) m.GrafanaOldDefaultName), .wait .Grafana]
  else []

/-- The steps of the Promtail block, in source order. -/
def promtailSteps (m : Model) (cr : Observability) : List Step :=
  if !m.ExternalSyncDisabled cr || !m.ObservatoriumDisabled cr then
    [.del (renamed .ServiceAccount (m.GetPromtailServiceAccount cr) m.PromtailOldDefaultName),
     .del (renamed .ClusterRole (m.GetPromtailClusterRole cr) m.PromtailOldDefaultName),
     .del (renamed .ClusterRoleBinding (m.GetPromtailClusterRoleBinding cr)
       m.PromtailOldDefaultName)]
  else []

/-- All steps of an unmigrated tick, in source order. -/
def migrationSteps (m : Model) (cr : Observability) : List Step :=
  prometheusSteps m cr ++ alertmanagerSteps m cr ++ grafanaSteps m cr ++ promtailSteps m cr

/-- Run steps until a delete fails: the failing error if any, and the world reached. -/
def execSteps {σ : Type} (c : Client σ) (cr : Observability) :
    List Step → World σ → Option Err × World σ
  | [], w => (none, w)
  | .del ref :: rest, w =>
      let r := callDelete c w ref
      if deleteFailed r.1 then (r.1, r.2) else execSteps c cr rest r.2
  | .wait kind :: rest, w => execSteps c cr rest (WaitForRemoved c kind cr w).world

/-- The outcome of a tick from the result of `execSteps`. -/
def finish {σ : Type} (s : ObservabilityStatus) (k : World σ → MigrationOutcome σ)
    (r : Option Err × World σ) : MigrationOutcome σ :=
  match r.1 with
  | some e => ⟨.ResultFailed, some e, s, r.2⟩
  | none => k r.2

/-- An event is a failed delete when it is a delete answered with an error other than
NotFound. -/
def Event.failedDelete (ev : Event) : Bool :=
  match ev.call with
  | .Delete _ => deleteFailed ev.err
  | _ => false

/-- The deletes among the events of a log, in order. -/
def deletesOf (log : List Event) : List ObjectRef :=
  log.filterMap fun ev => match ev.call with
    | .Delete ref => some ref
    | _ => none

/-- The deletes among the steps, in order. -/
def stepDeletes (steps : List Step) : List ObjectRef :=
  steps.filterMap fun st => match st with
    | .del ref => some ref
    | .wait _ => none

/-- A stateless store in which every write succeeds, every Get is answered NotFound and every
List is empty. -/
def okClient : Client Unit where
  Get := fun _ _ => (.error .NotFound, ())
  List := fun _ _ _ => (.ok [], ())
  Create := fun _ _ _ => (none, ())
  Update := fun _ _ _ => (none, ())
  Delete := fun _ _ => (none, ())

/-- A stateless store in which every delete is answered NotFound: nothing is left to delete. -/
def emptyClient : Client Unit where
  Get := fun _ _ => (.error .NotFound, ())
  List := fun _ _ _ => (.ok [], ())
  Create := fun _ _ _ => (none, ())
  Update := fun _ _ _ => (none, ())
  Delete := fun _ _ => (some .NotFound, ())

/-! ## The dependency order of section 4.4 -/

/-- The classes of the dependency order as the specification words them: primary workload
object (0), route and service exposure objects (1), service account (2), cluster role and
cluster role binding (3). Other kinds are outside the order. -/
def dependencyClass : Kind → Option Nat
  | .Prometheus => some 0
  | .Alertmanager => some 0
  | .Grafana => some 0
  | .Route => some 1
  | .Service => some 1
  | .ServiceAccount => some 2
  | .ClusterRole => some 3
  | .ClusterRoleBinding => some 3
  | _ => none

/-- Kind `a` may be deleted before kind `b`: the class of `a` is not later than that of `b`. -/
def classBefore (a b : Kind) : Bool :=
  match dependencyClass a, dependencyClass b with
  | some i, some j => decide (i ≤ j)
  | _, _ => true

/-- A sequence of deletes is in dependency order when no object of a later class comes before
an object of an earlier class. -/
def inDependencyOrder (refs : List ObjectRef) : Prop :=
  refs.Pairwise fun a b => classBefore a.Kind b.Kind = true

instance (refs : List ObjectRef) : Decidable (inDependencyOrder refs) := by
  unfold inDependencyOrder
  infer_instance

/-- The kinds of a sequence of deletes. -/
def kindsOf (refs : List ObjectRef) : List Kind := refs.map fun r => r.Kind

/-- The outcome of a cleanup from the result of `execSteps`. -/
def finishCleanup {σ : Type} (k : World σ → Outcome σ) (r : Option Err × World σ) :
    Outcome σ :=
  match r.1 with
  | some e => ⟨.ResultFailed, some e, r.2⟩
  | none => k r.2

/-- The deletes of `prometheus_installation.Reconciler.Cleanup`, in source order. -/
def installationCleanupSteps (m : Model) (cr : Observability) : List Step :=
  [.del ((m.GetPrometheusSubscription cr).ref .Subscription),
   .del ((m.GetPrometheusOperatorgroup cr).ref .OperatorGroup),
   .del ((m.GetPrometheusCatalogSource cr).ref .CatalogSource)] ++
  (if m.DescopedModeEnabled cr then [.del ((m.GetPrometheusNamespace cr).ref .Namespace)]
   else [])

/-- The delete of `token.Reconciler.Cleanup`. -/
def tokenCleanupSteps (m : Model) (cr : Observability) : List Step :=
  [.del ((m.GetTokenSecret cr "observatorium-credentials").ref .Secret)]


/-! ## A store as a set of object identities -/

/-- A store holding a set of object identities, with a schedule of injected answers for the
coming deletes: `some e` makes the next delete fail with `e` and remove nothing, `none` (or an
exhausted schedule) lets the delete act on the set. -/
structure SetStore where
  objs : List ObjectRef
  faults : List (Option Err)
  deriving DecidableEq, Repr

/-- A delete acting on the set: a present identity is removed and the answer is ok; an absent
one is answered NotFound. -/
def SetStore.remove (objs : List ObjectRef) (ref : ObjectRef) : Option Err × List ObjectRef :=
  if ref ∈ objs then (none, objs.filter fun r => decide (r ≠ ref)) else (some .NotFound, objs)

/-- The client of a `SetStore`. -/
def setClient : Client SetStore where
  Get := fun s ref =>
    (if ref ∈ s.objs then .ok ⟨ref.Namespace, ref.Name, .Other []⟩ else .error .NotFound, s)
  List := fun s kind ns =>
    (.ok ((s.objs.filter fun r => decide (r.Kind = kind ∧ r.Namespace = ns)).map
      fun r => ⟨r.Name, 0⟩), s)
  Create := fun s kind o =>
    if o.ref kind ∈ s.objs then (some .AlreadyExists, s)
    else (none, { s with objs := s.objs ++ [o.ref kind] })
  Update := fun s kind o =>
    if o.ref kind ∈ s.objs then (none, s) else (some .NotFound, s)
  Delete := fun s ref =>
    match s.faults with
    | some e :: rest => (some e, ⟨s.objs, rest⟩)
    | none :: rest => ((SetStore.remove s.objs ref).1, ⟨(SetStore.remove s.objs ref).2, rest⟩)
    | [] => ((SetStore.remove s.objs ref).1, ⟨(SetStore.remove s.objs ref).2, []⟩)

/-- A cluster holding legacy Prometheus objects, the legacy Grafana object and one unrelated
secret. -/
def legacyObjs : List ObjectRef :=
  [⟨.Prometheus, "obs", "kafka-prometheus"⟩,
   ⟨.Route, "obs", "kafka-prometheus"⟩,
   ⟨.Service, "obs", "kafka-prometheus"⟩,
   ⟨.ServiceAccount, "obs", "kafka-prometheus"⟩,
   ⟨.ClusterRole, "", "kafka-prometheus"⟩,
   ⟨.Secret, "obs", "unrelated"⟩,
   ⟨.Grafana, "obs", "kafka-grafana"⟩]


/-- An event is a submit when it is a Create or an Update. -/
def Event.isSubmit (ev : Event) : Bool :=
  match ev.call with
  | .Create _ => true
  | .Update _ => true
  | _ => false

/-- An event is a delete. -/
def Event.isDelete (ev : Event) : Bool :=
  match ev.call with
  | .Delete _ => true
  | _ => false

/-- An event is a fetch when it is a Get. -/
def Event.isGet (ev : Event) : Bool :=
  match ev.call with
  | .Get _ => true
  | _ => false

/-- A store over a counter of submits: every Get finds an object with an empty
specification, and the first submit (Create or Update) is answered with a conflict, every
later one with success. -/
def conflictOnceClient : Client Nat where
  Get := fun n ref => (.ok ⟨ref.Namespace, ref.Name, .Other []⟩, n)
  List := fun n _ _ => (.ok [], n)
  Create := fun n _ _ => (if n = 0 then some .Conflict else none, n + 1)
  Update := fun n _ _ => (if n = 0 then some .Conflict else none, n + 1)
  Delete := fun n _ => (none, n)


/-! ## The drift guard of `reconcileCatalogSource` -/

/-- The key of the catalog source fetched by `reconcileCatalogSource`. -/
def catalogSourceKey (m : Model) (cr : Observability) : ObjectRef :=
  ⟨.CatalogSource, m.GetPrometheusOperatorNamespace cr, "prometheus-catalogsource"⟩

/-- The stale subscription removed by `removePrometheusOperatorResources`. -/
def staleSubscription (m : Model) (cr : Observability) : ObjectRef :=
  ⟨.Subscription, m.GetPrometheusOperatorNamespace cr, "prometheus-subscription"⟩

/-- The stale cluster service version removed by `removePrometheusOperatorResources`. -/
def staleCSV (m : Model) (cr : Observability) : ObjectRef :=
  ⟨.ClusterServiceVersion, m.GetPrometheusOperatorNamespace cr, "prometheusoperator.0.56.3"⟩

/-- The store's answer to the delete of the stale subscription, issued after the Get of the
catalog source from store state `st`. -/
def staleSubscriptionAnswer {σ : Type} (c : Client σ) (m : Model) (cr : Observability)
    (st : σ) : Option Err × σ :=
  c.Delete (c.Get st (catalogSourceKey m cr)).2 (staleSubscription m cr)

/-- The store's answer to the delete of the stale cluster service version, issued after the
delete of the stale subscription. -/
def staleCSVAnswer {σ : Type} (c : Client σ) (m : Model) (cr : Observability)
    (st : σ) : Option Err × σ :=
  c.Delete (staleSubscriptionAnswer c m cr st).2 (staleCSV m cr)


/-- The catalog source object `reconcileCatalogSource` starts from. -/
def catalogSourceObject (m : Model) (cr : Observability) : Object :=
  ⟨m.GetPrometheusOperatorNamespace cr, "prometheus-catalogsource", .CatalogSourceSpec "" ""⟩


/-! ## The ticks of the installation stage -/

/-- The world in which the catalog-source step of `Reconcile` starts: after the namespace
step in descoped mode, the initial one otherwise. -/
def afterNamespace {σ : Type} (c : Client σ) (m : Model) (cr : Observability)
    (w : World σ) : World σ :=
  if m.DescopedModeEnabled cr then (prometheus_installation.reconcileNamespace c m cr w).world
  else w

/-- The world left by the catalog-source step. -/
def afterCatalogSource {σ : Type} (c : Client σ) (m : Model) (cr : Observability)
    (w : World σ) : World σ :=
  (prometheus_installation.reconcileCatalogSource c m cr (afterNamespace c m cr w)).world

/-- The world left by the subscription step. -/
def afterSubscription {σ : Type} (c : Client σ) (m : Model) (cr : Observability)
    (w : World σ) : World σ :=
  (prometheus_installation.reconcileSubscription c m cr (afterCatalogSource c m cr w)).world

/-- The world left by the operator-group step. -/
def afterOperatorgroup {σ : Type} (c : Client σ) (m : Model)
    (hasOG : World σ → String → Except Err Bool × World σ) (cr : Observability)
    (w : World σ) : World σ :=
  (prometheus_installation.reconcileOperatorgroup c m hasOG cr
    (afterSubscription c m cr w)).world

/-- The namespace (descoped mode only), catalog-source, subscription and operator-group steps
of a tick from `w` all succeed. -/
def prerequisitesSucceed {σ : Type} (c : Client σ) (m : Model)
    (hasOG : World σ → String → Except Err Bool × World σ) (cr : Observability)
    (w : World σ) : Prop :=
  (m.DescopedModeEnabled cr = true →
    (prometheus_installation.reconcileNamespace c m cr w).status = .ResultSuccess) ∧
  (prometheus_installation.reconcileCatalogSource c m cr (afterNamespace c m cr w)).status =
    .ResultSuccess ∧
  (prometheus_installation.reconcileSubscription c m cr (afterCatalogSource c m cr w)).status =
    .ResultSuccess ∧
  (prometheus_installation.reconcileOperatorgroup c m hasOG cr
    (afterSubscription c m cr w)).status = .ResultSuccess

instance {σ : Type} (c : Client σ) (m : Model)
    (hasOG : World σ → String → Except Err Bool × World σ) (cr : Observability)
    (w : World σ) : Decidable (prerequisitesSucceed c m hasOG cr w) := by
  unfold prerequisitesSucceed
  infer_instance

/-- The readiness check of a tick from `w`, made after the operator-group step. -/
def readinessCheck {σ : Type} (c : Client σ) (m : Model)
    (hasOG : World σ → String → Except Err Bool × World σ) (cr : Observability)
    (w : World σ) : Outcome σ :=
  prometheus_installation.waitForPrometheusOperator c m cr (afterOperatorgroup c m hasOG cr w)

/-- The store state at the start of tick `n` (counted from 0), every tick being one
`Reconcile` of the installation stage from the state the previous tick left. -/
def tickState {σ : Type} (c : Client σ) (m : Model)
    (hasOG : World σ → String → Except Err Bool × World σ) (cr : Observability)
    (st : σ) : Nat → σ
  | 0 => st
  | n + 1 => (prometheus_installation.Reconcile c m hasOG cr
      (World.init (tickState c m hasOG cr st n))).world.state

/-- A store over a counter of List calls: nothing is found by a Get, every write succeeds, and
the operator deployment is listed ready from the third List on. -/
def warmupClient : Client Nat where
  Get := fun n _ => (.error .NotFound, n)
  List := fun n _ _ => (.ok [⟨"prometheus-operator", if n < 2 then 0 else 1⟩], n + 1)
  Create := fun n _ _ => (none, n)
  Update := fun n _ _ => (none, n)
  Delete := fun n _ => (none, n)

/-- An operator-group check that always finds one and makes no call. -/
def operatorGroupPresent {σ : Type} (w : World σ) (_ns : String) : Except Err Bool × World σ :=
  (.ok true, w)

/-- A stateless store whose every List is answered with the given deployments. -/
def listingClient (items : List ListItem) : Client Unit where
  Get := fun _ _ => (.error .NotFound, ())
  List := fun _ _ _ => (.ok items, ())
  Create := fun _ _ _ => (none, ())
  Update := fun _ _ _ => (none, ())
  Delete := fun _ _ => (none, ())


/-! ## The desired Grafana specification -/

/-- The Grafana specification the desired specification and the repository indexes call
for: the literal, with the tolerations and affinity of the desired specification in its
deployment. -/
def desiredGrafanaSpec (g : GrafanaModel) (cr : Observability)
    (indexes : List RepositoryIndex) : GrafanaSpec :=
  { configuration.grafanaSpecLiteral g cr indexes with
    Deployment := (configuration.grafanaSpecLiteral g cr indexes).Deployment.map fun d =>
      { d with Tolerations := g.Tolerations cr, Affinity := g.Affinity cr } }

/-- The key of the Grafana object `reconcileGrafanaCr` applies. -/
def grafanaKey (m : Model) (cr : Observability) : ObjectRef :=
  ⟨.Grafana, (m.GetGrafanaCr cr).Namespace, (m.GetGrafanaCr cr).Name⟩

/-- A Grafana model instance: version "8.3.3" from the indexes helper, a parser that accepts
it, one toleration and no affinity in the desired specification. -/
def sampleGrafanaModel : GrafanaModel where
  GetGrafanaCrSpec := fun _ => .Other []
  GetGrafanaVersion := fun _ _ => "8.3.3"
  ParseTolerant := fun v => (v, true)
  GetGrafanaDashboardLabelSelectors := fun _ _ => some ⟨[("app", "strimzi")], []⟩
  ObservabilityPriorityClassName := "observability-operator-pod-priority"
  GetGrafanaResourceRequirement := fun _ => none
  Tolerations := fun _ => some [⟨"node-role", "Exists", "", "NoSchedule", none⟩]
  Affinity := fun _ => none

/-- A stateless store holding one object: every Get is answered with it, every write
succeeds. -/
def holdingClient (o : Object) : Client Unit where
  Get := fun _ _ => (.ok o, ())
  List := fun _ _ _ => (.ok [], ())
  Create := fun _ _ _ => (none, ())
  Update := fun _ _ _ => (none, ())
  Delete := fun _ _ => (none, ())

/-- The live Grafana object after an apply under `sampleGrafanaModel`. -/
def appliedGrafana : Object :=
  configuration.grafanaMutate sampleGrafanaModel sampleCr [] ⟨"obs", "grafana", .Other []⟩

/-- The live Grafana object with its specification modified from outside: the proxy container
and the ingress removed, another base image. -/
def driftedGrafana : Object :=
  ⟨"obs", "grafana", .GrafanaSpec
    { desiredGrafanaSpec sampleGrafanaModel sampleCr [] with
      Containers := [], Ingress := none, BaseImage := "docker.io/grafana/grafana:1.0.0" }⟩


end ObsOperator

namespace ObsOperator

/-! ## Lemmas on the step list -/

theorem deleteFailed_some_iff (e : Err) : deleteFailed (some e) = true ↔ IsNotFound e = false := by
  simp [deleteFailed]

theorem execSteps_append {σ : Type} (c : Client σ) (cr : Observability) (a b : List Step)
    (w : World σ) :
    execSteps c cr (a ++ b) w =
      match (execSteps c cr a w).1 with
      | some e => (some e, (execSteps c cr a w).2)
      | none => execSteps c cr b (execSteps c cr a w).2 := by
  induction a generalizing w with
  | nil => simp [execSteps]
  | cons st rest ih =>
    cases st with
    | del ref =>
      simp only [List.cons_append, execSteps]
      by_cases h : deleteFailed (callDelete c w ref).1 = true
      · simp only [h, if_true]
        cases hr : (callDelete c w ref).1 with
        | none => simp [hr, deleteFailed] at h
        | some e => rfl
      · simp only [h]
        exact ih _
    | wait kind =>
      simp only [List.cons_append, execSteps]
      exact ih _

theorem finish_execSteps_append {σ : Type} (c : Client σ) (cr : Observability)
    (s : ObservabilityStatus) (a b : List Step) (w : World σ)
    (k : World σ → MigrationOutcome σ) :
    finish s k (execSteps c cr (a ++ b) w) =
      finish s (fun w1 => finish s k (execSteps c cr b w1)) (execSteps c cr a w) := by
  rw [execSteps_append]
  cases h : (execSteps c cr a w).1 <;> simp [finish, h]

theorem deleteOrReturn_eq {σ : Type} (c : Client σ) (cr : Observability)
    (s : ObservabilityStatus) (ref : ObjectRef) (rest : List Step) (w : World σ)
    (k k1 : World σ → MigrationOutcome σ)
    (hk : ∀ w1, k1 w1 = finish s k (execSteps c cr rest w1)) :
    deleteOrReturn c s ref w k1 = finish s k (execSteps c cr (.del ref :: rest) w) := by
  simp only [deleteOrReturn, execSteps]
  by_cases h : deleteFailed (callDelete c w ref).1 = true
  · simp only [h, if_true]
    cases hr : (callDelete c w ref).1 with
    | none => simp [hr, deleteFailed] at h
    | some e => simp [finish, hr]
  · simp only [h]
    exact hk _

theorem finish_nil {σ : Type} (c : Client σ) (cr : Observability)
    (s : ObservabilityStatus) (w : World σ) (k : World σ → MigrationOutcome σ) :
    k w = finish s k (execSteps c cr [] w) := rfl

theorem finish_wait {σ : Type} (c : Client σ) (cr : Observability)
    (s : ObservabilityStatus) (kind : Kind) (rest : List Step) (w : World σ)
    (k : World σ → MigrationOutcome σ) :
    finish s k (execSteps c cr rest (WaitForRemoved c kind cr w).world) =
      finish s k (execSteps c cr (.wait kind :: rest) w) := rfl

theorem reconcilePrometheus_eq {σ : Type} (c : Client σ) (m : Model) (cr : Observability)
    (s : ObservabilityStatus) (w : World σ) (k : World σ → MigrationOutcome σ) :
    reconcilePrometheus c m cr s w k = finish s k (execSteps c cr (prometheusSteps m cr) w) := by
  unfold reconcilePrometheus prometheusSteps
  split
  · refine deleteOrReturn_eq c cr s _ _ w k _ (fun w1 => ?_)
    simp only [WaitForPrometheusToBeRemoved]
    rw [← finish_wait]
    refine deleteOrReturn_eq c cr s _ _ _ k _ (fun w2 => ?_)
    refine deleteOrReturn_eq c cr s _ _ _ k _ (fun w3 => ?_)
    refine deleteOrReturn_eq c cr s _ _ _ k _ (fun w4 => ?_)
    refine deleteOrReturn_eq c cr s _ _ _ k _ (fun w5 => ?_)
    refine deleteOrReturn_eq c cr s _ _ _ k _ (fun w6 => ?_)
    rfl
  · rfl

theorem reconcileAlertmanager_eq {σ : Type} (c : Client σ) (m : Model) (cr : Observability)
    (s : ObservabilityStatus) (w : World σ) (k : World σ → MigrationOutcome σ) :
    reconcileAlertmanager c m cr s w k =
      finish s k (execSteps c cr (alertmanagerSteps m cr) w) := by
  have hrest : ∀ w0 : World σ,
      (deleteOrReturn c s (renamed .Alertmanager (m.GetAlertmanagerCr cr)
        m.AlertManagerOldDefaultName) w0 fun w =>
      deleteOrReturn c s (renamed .ServiceAccount (m.GetAlertmanagerServiceAccount cr)
        m.AlertManagerOldDefaultName) (WaitForAlertmanagerToBeRemoved c cr w).world fun w =>
      deleteOrReturn c s (renamed .Route (m.GetAlertmanagerRoute cr)
        m.AlertManagerOldDefaultName) w fun w =>
      deleteOrReturn c s (renamed .Service (m.GetAlertmanagerService cr)
        m.AlertManagerOldDefaultName) w fun w =>
      deleteOrReturn c s (renamed .ClusterRole (m.GetAlertmanagerClusterRole cr)
        m.AlertManagerOldDefaultName) w fun w =>
      deleteOrReturn c s (renamed .ClusterRoleBinding (m.GetAlertmanagerClusterRoleBinding cr)
        m.AlertManagerOldDefaultName) w k) =
      finish s k (execSteps c cr
        [.del (renamed .Alertmanager (m.GetAlertmanagerCr cr) m.AlertManagerOldDefaultName),
         .wait .Alertmanager,
         .del (renamed .ServiceAccount (m.GetAlertmanagerServiceAccount cr)
           m.AlertManagerOldDefaultName),
         .del (renamed .Route (m.GetAlertmanagerRoute cr) m.AlertManagerOldDefaultName),
         .del (renamed .Service (m.GetAlertmanagerService cr) m.AlertManagerOldDefaultName),
         .del (renamed .ClusterRole (m.GetAlertmanagerClusterRole cr)
           m.AlertManagerOldDefaultName),
         .del (renamed .ClusterRoleBinding (m.GetAlertmanagerClusterRoleBinding cr)
           m.AlertManagerOldDefaultName)] w0) := by
    intro w0
    refine deleteOrReturn_eq c cr s _ _ w0 k _ (fun w1 => ?_)
    simp only [WaitForAlertmanagerToBeRemoved]
    rw [← finish_wait]
    refine deleteOrReturn_eq c cr s _ _ _ k _ (fun w2 => ?_)
    refine deleteOrReturn_eq c cr s _ _ _ k _ (fun w3 => ?_)
    refine deleteOrReturn_eq c cr s _ _ _ k _ (fun w4 => ?_)
    refine deleteOrReturn_eq c cr s _ _ _ k _ (fun w5 => ?_)
    refine deleteOrReturn_eq c cr s _ _ _ k _ (fun w6 => ?_)
    rfl
  unfold reconcileAlertmanager alertmanagerSteps
  by_cases h1 : cr.Spec.AlertManagerDefaultName = ""
  · simp only [h1, if_true]
    by_cases h2 : (!(m.HasAlertmanagerConfigSecret cr).1 && !m.ExternalSyncDisabled cr) = true
    · simp only [h2, if_true, List.singleton_append]
      exact deleteOrReturn_eq c cr s _ _ w k _ hrest
    · simp only [h2, List.nil_append]
      exact hrest w
  · simp only [h1, if_false]
    rfl

theorem reconcileGrafana_eq {σ : Type} (c : Client σ) (m : Model) (cr : Observability)
    (s : ObservabilityStatus) (w : World σ) (k : World σ → MigrationOutcome σ) :
    reconcileGrafana c m cr s w k = finish s k (execSteps c cr (grafanaSteps m cr) w) := by
  unfold reconcileGrafana grafanaSteps
  split
  · refine deleteOrReturn_eq c cr s _ _ w k _ (fun w1 => ?_)
    rfl
  · rfl

theorem reconcilePromtail_eq {σ : Type} (c : Client σ) (m : Model) (cr : Observability)
    (s : ObservabilityStatus) (w : World σ) (k : World σ → MigrationOutcome σ) :
    reconcilePromtail c m cr s w k = finish s k (execSteps c cr (promtailSteps m cr) w) := by
  unfold reconcilePromtail promtailSteps
  split
  · refine deleteOrReturn_eq c cr s _ _ w k _ (fun w1 => ?_)
    refine deleteOrReturn_eq c cr s _ _ _ k _ (fun w2 => ?_)
    refine deleteOrReturn_eq c cr s _ _ _ k _ (fun w3 => ?_)
    rfl
  · rfl

/-- An unmigrated tick runs the step list and, when no delete failed, sets the flag. -/
theorem Reconcile_eq_steps {σ : Type} (c : Client σ) (m : Model) (cr : Observability)
    (s : ObservabilityStatus) (w : World σ) (hs : s.Migrated = false) :
    migration.Reconcile c m cr s w =
      finish s (fun w1 => ⟨.ResultSuccess, none, { s with Migrated := true }, w1⟩)
        (execSteps c cr (migrationSteps m cr) w) := by
  unfold migration.Reconcile migrationSteps
  simp only [hs, Bool.false_eq_true, if_false]
  rw [finish_execSteps_append, finish_execSteps_append, finish_execSteps_append]
  rw [reconcilePrometheus_eq]
  congr 1
  funext w1
  rw [reconcileAlertmanager_eq]
  congr 1
  funext w2
  rw [reconcileGrafana_eq]
  congr 1
  funext w3
  rw [reconcilePromtail_eq]

theorem WaitForRemoved_log {σ : Type} (c : Client σ) (kind : Kind) (cr : Observability)
    (w : World σ) :
    (WaitForRemoved c kind cr w).world.log =
      w.log ++ [⟨.List kind cr.Namespace, errOf (c.List w.state kind cr.Namespace).1⟩] := by
  unfold WaitForRemoved
  simp only [callList]
  split
  · rfl
  · split <;> rfl

theorem WaitForRemoved_state {σ : Type} (c : Client σ) (kind : Kind) (cr : Observability)
    (w : World σ) :
    (WaitForRemoved c kind cr w).world.state = (c.List w.state kind cr.Namespace).2 := by
  unfold WaitForRemoved
  simp only [callList]
  split
  · rfl
  · split <;> rfl

theorem deletesOf_append (a b : List Event) : deletesOf (a ++ b) = deletesOf a ++ deletesOf b := by
  simp [deletesOf, List.filterMap_append]

/-- What a run of the steps leaves in the log: the new events hold no failed delete except,
when the run was aborted, the last one, which carries the returned error; the deletes issued
are a prefix of the planned ones, all of them when the run was not aborted. -/
theorem execSteps_spec {σ : Type} (c : Client σ) (cr : Observability) (steps : List Step)
    (w : World σ) :
    ∃ evs, (execSteps c cr steps w).2.log = w.log ++ evs ∧
      (((execSteps c cr steps w).1 = none ∧ (∀ ev ∈ evs, Event.failedDelete ev = false) ∧
          deletesOf evs = stepDeletes steps) ∨
       (∃ e pre ref, (execSteps c cr steps w).1 = some e ∧ IsNotFound e = false ∧
          evs = pre ++ [⟨.Delete ref, some e⟩] ∧ (∀ ev ∈ pre, Event.failedDelete ev = false) ∧
          deletesOf evs <+: stepDeletes steps)) := by
  induction steps generalizing w with
  | nil =>
    exact ⟨[], by simp [execSteps], Or.inl ⟨rfl, by simp, rfl⟩⟩
  | cons st rest ih =>
    cases st with
    | del ref =>
      simp only [execSteps]
      by_cases h : deleteFailed (callDelete c w ref).1 = true
      · simp only [h, if_true]
        cases hr : (c.Delete w.state ref).1 with
        | none => simp [callDelete, hr, deleteFailed] at h
        | some e =>
          have hnf : IsNotFound e = false := by
            simpa [callDelete, hr, deleteFailed] using h
          refine ⟨[⟨.Delete ref, some e⟩], by simp [callDelete, hr], Or.inr ⟨e, [], ref, ?_⟩⟩
          refine ⟨by simp [callDelete, hr], hnf, rfl, by simp, ?_⟩
          simp [deletesOf, stepDeletes, List.filterMap_cons]
      · simp only [h, Bool.false_eq_true, if_false]
        have hnot : Event.failedDelete ⟨.Delete ref, (c.Delete w.state ref).1⟩ = false := by
          simpa [Event.failedDelete, callDelete] using h
        obtain ⟨evs, hlog, hcase⟩ := ih (callDelete c w ref).2
        refine ⟨⟨.Delete ref, (c.Delete w.state ref).1⟩ :: evs, ?_, ?_⟩
        · rw [hlog]; simp [callDelete]
        · rcases hcase with ⟨h1, h2, h3⟩ | ⟨e, pre, ref1, h1, h2, h3, h4, h5⟩
          · refine Or.inl ⟨h1, ?_, ?_⟩
            · intro ev hev
              rcases List.mem_cons.mp hev with rfl | hmem
              · exact hnot
              · exact h2 ev hmem
            · simp only [deletesOf, stepDeletes, List.filterMap_cons] at h3 ⊢
              rw [h3]
          · refine Or.inr ⟨e, ⟨.Delete ref, (c.Delete w.state ref).1⟩ :: pre, ref1, h1, h2,
              by rw [h3]; rfl, ?_, ?_⟩
            · intro ev hev
              rcases List.mem_cons.mp hev with rfl | hmem
              · exact hnot
              · exact h4 ev hmem
            · simp only [deletesOf, stepDeletes, List.filterMap_cons] at h5 ⊢
              exact (List.prefix_cons_inj ref).mpr h5
    | wait kind =>
      simp only [execSteps]
      obtain ⟨evs, hlog, hcase⟩ := ih (WaitForRemoved c kind cr w).world
      refine ⟨⟨.List kind cr.Namespace, errOf (c.List w.state kind cr.Namespace).1⟩ :: evs,
        ?_, ?_⟩
      · rw [hlog, WaitForRemoved_log]; simp
      · rcases hcase with ⟨h1, h2, h3⟩ | ⟨e, pre, ref1, h1, h2, h3, h4, h5⟩
        · refine Or.inl ⟨h1, ?_, ?_⟩
          · intro ev hev
            rcases List.mem_cons.mp hev with rfl | hmem
            · rfl
            · exact h2 ev hmem
          · simp only [deletesOf, stepDeletes, List.filterMap_cons] at h3 ⊢
            exact h3
        · refine Or.inr ⟨e, _ :: pre, ref1, h1, h2, by rw [h3]; rfl, ?_, ?_⟩
          · intro ev hev
            rcases List.mem_cons.mp hev with rfl | hmem
            · rfl
            · exact h4 ev hmem
          · simp only [deletesOf, stepDeletes, List.filterMap_cons] at h5 ⊢
            exact h5

/-! ## Migration gate: failure policy and reentrancy -/

/-- C1. Migration gate failure policy: on an unmigrated status, if the delete logged at
position `i` of the tick was answered with an error `e` other than NotFound, then `Reconcile`
returns `(ResultFailed, e)`, that delete is the last call of the tick, and `Migrated` is
still false. -/
theorem migration_failure_policy {σ : Type} (c : Client σ) (m : Model) (cr : Observability)
    (s : ObservabilityStatus) (st : σ) (hs : s.Migrated = false) (i : Nat) (ref : ObjectRef)
    (e : Err)
    (hev : (migration.Reconcile c m cr s (World.init st)).world.log[i]? =
      some ⟨.Delete ref, some e⟩)
    (hnf : IsNotFound e = false) :
    (migration.Reconcile c m cr s (World.init st)).status = .ResultFailed ∧
    (migration.Reconcile c m cr s (World.init st)).err = some e ∧
    (migration.Reconcile c m cr s (World.init st)).world.log.length = i + 1 ∧
    (migration.Reconcile c m cr s (World.init st)).s.Migrated = false := by
  rw [Reconcile_eq_steps c m cr s _ hs] at hev ⊢
  obtain ⟨evs, hlog, hcase⟩ := execSteps_spec c cr (migrationSteps m cr) (World.init st)
  have hfail : Event.failedDelete ⟨.Delete ref, some e⟩ = true := by
    simp [Event.failedDelete, deleteFailed, hnf]
  replace hlog : (execSteps c cr (migrationSteps m cr) (World.init st)).2.log = evs := by
    rw [hlog]; rfl
  rcases hcase with ⟨h1, h2, _⟩ | ⟨e1, pre, ref1, h1, _, h3, h4, _⟩
  · exfalso
    simp only [finish, h1] at hev
    rw [hlog] at hev
    have hmem := List.getElem?_mem hev
    rw [h2 _ hmem] at hfail
    exact Bool.noConfusion hfail
  · simp only [finish, h1] at hev ⊢
    rw [hlog, h3] at hev
    rw [hlog, h3]
    have hlt : ¬ i < pre.length := by
      intro hlt
      rw [List.getElem?_append_left hlt] at hev
      have hmem := List.getElem?_mem hev
      rw [h4 _ hmem] at hfail
      exact Bool.noConfusion hfail
    have hi : i = pre.length := by
      have hlen := List.getElem?_eq_some_iff.mp hev
      obtain ⟨hl, _⟩ := hlen
      simp at hl
      omega
    subst hi
    simp at hev
    refine ⟨trivial, ?_, by simp, hs⟩
    rw [hev.2]

/-- Witness of C1: with the delete of the legacy Prometheus route answered by a server error,
the tick stops after its third call. -/
theorem migration_failure_policy_witness :
    (migration.Reconcile (faultyClient ⟨.Route, "obs", "kafka-prometheus"⟩ (.Other 500))
      sampleModel sampleCr ⟨false⟩ (World.init ())).status = .ResultFailed ∧
    (migration.Reconcile (faultyClient ⟨.Route, "obs", "kafka-prometheus"⟩ (.Other 500))
      sampleModel sampleCr ⟨false⟩ (World.init ())).err = some (.Other 500) ∧
    (migration.Reconcile (faultyClient ⟨.Route, "obs", "kafka-prometheus"⟩ (.Other 500))
      sampleModel sampleCr ⟨false⟩ (World.init ())).world.log.length = 2 + 1 ∧
    (migration.Reconcile (faultyClient ⟨.Route, "obs", "kafka-prometheus"⟩ (.Other 500))
      sampleModel sampleCr ⟨false⟩ (World.init ())).s.Migrated = false :=
  migration_failure_policy (faultyClient ⟨.Route, "obs", "kafka-prometheus"⟩ (.Other 500))
    sampleModel sampleCr ⟨false⟩ () rfl 2 ⟨.Route, "obs", "kafka-prometheus"⟩ (.Other 500)
    (by decide) (by decide)

/-- C2. Migration reentrancy: on a status with `Migrated = true`, `Reconcile` returns
`(ResultSuccess, nil)`, leaves the status as it is (so the flag stays true) and leaves the
world as it is: no store call is made. -/
theorem migration_reentrancy {σ : Type} (c : Client σ) (m : Model) (cr : Observability)
    (s : ObservabilityStatus) (w : World σ) (hs : s.Migrated = true) :
    (migration.Reconcile c m cr s w).status = .ResultSuccess ∧
    (migration.Reconcile c m cr s w).err = none ∧
    (migration.Reconcile c m cr s w).s = s ∧
    (migration.Reconcile c m cr s w).s.Migrated = true ∧
    (migration.Reconcile c m cr s w).world.log = w.log ∧
    (migration.Reconcile c m cr s w).world.state = w.state := by
  simp [migration.Reconcile, hs]

/-- Witness of C2: a migrated status on a store that would fail every route delete. -/
theorem migration_reentrancy_witness :
    (migration.Reconcile (faultyClient ⟨.Route, "obs", "kafka-prometheus"⟩ (.Other 500))
      sampleModel sampleCr ⟨true⟩ (World.init ())).status = .ResultSuccess ∧
    (migration.Reconcile (faultyClient ⟨.Route, "obs", "kafka-prometheus"⟩ (.Other 500))
      sampleModel sampleCr ⟨true⟩ (World.init ())).err = none ∧
    (migration.Reconcile (faultyClient ⟨.Route, "obs", "kafka-prometheus"⟩ (.Other 500))
      sampleModel sampleCr ⟨true⟩ (World.init ())).s = ⟨true⟩ ∧
    (migration.Reconcile (faultyClient ⟨.Route, "obs", "kafka-prometheus"⟩ (.Other 500))
      sampleModel sampleCr ⟨true⟩ (World.init ())).s.Migrated = true ∧
    (migration.Reconcile (faultyClient ⟨.Route, "obs", "kafka-prometheus"⟩ (.Other 500))
      sampleModel sampleCr ⟨true⟩ (World.init ())).world.log = (World.init ()).log ∧
    (migration.Reconcile (faultyClient ⟨.Route, "obs", "kafka-prometheus"⟩ (.Other 500))
      sampleModel sampleCr ⟨true⟩ (World.init ())).world.state = (World.init ()).state :=
  migration_reentrancy _ sampleModel sampleCr ⟨true⟩ (World.init ()) rfl

/-! ## Migration gate: the order of the deletes -/

/-- When no delete of an unmigrated tick fails, the tick succeeds, sets the flag, and the
deletes of its log are the planned ones. -/
theorem Reconcile_success_deletes {σ : Type} (c : Client σ) (m : Model) (cr : Observability)
    (s : ObservabilityStatus) (st : σ) (hs : s.Migrated = false)
    (hok : (migration.Reconcile c m cr s (World.init st)).status = .ResultSuccess) :
    (migration.Reconcile c m cr s (World.init st)).err = none ∧
    (migration.Reconcile c m cr s (World.init st)).s.Migrated = true ∧
    deletesOf (migration.Reconcile c m cr s (World.init st)).world.log =
      stepDeletes (migrationSteps m cr) := by
  rw [Reconcile_eq_steps c m cr s _ hs] at hok ⊢
  obtain ⟨evs, hlog, hcase⟩ := execSteps_spec c cr (migrationSteps m cr) (World.init st)
  replace hlog : (execSteps c cr (migrationSteps m cr) (World.init st)).2.log = evs := by
    rw [hlog]; rfl
  rcases hcase with ⟨h1, _, h3⟩ | ⟨e1, pre, ref1, h1, _, _, _, _⟩
  · simp only [finish, h1]
    exact ⟨trivial, trivial, by rw [hlog, h3]⟩
  · simp [finish, h1] at hok

theorem stepDeletes_append (a b : List Step) :
    stepDeletes (a ++ b) = stepDeletes a ++ stepDeletes b := by
  simp [stepDeletes, List.filterMap_append]

/-- The deletes of an unmigrated tick that succeeds, as the code issues them: those of the
Prometheus, Alertmanager, Grafana and Promtail blocks in this order; the deletes of the
Prometheus, Grafana and Promtail blocks are in dependency order; those of the Alertmanager
block are, by kind: the config secret (when there is no override secret and external sync is
enabled), the workload, the service account, the route, the service, the cluster role and the
cluster role binding. -/
theorem migration_delete_order {σ : Type} (c : Client σ) (m : Model) (cr : Observability)
    (s : ObservabilityStatus) (st : σ) (hs : s.Migrated = false)
    (hok : (migration.Reconcile c m cr s (World.init st)).status = .ResultSuccess) :
    deletesOf (migration.Reconcile c m cr s (World.init st)).world.log =
      stepDeletes (prometheusSteps m cr) ++ stepDeletes (alertmanagerSteps m cr) ++
        stepDeletes (grafanaSteps m cr) ++ stepDeletes (promtailSteps m cr) ∧
    kindsOf (stepDeletes (prometheusSteps m cr)) =
      (if cr.Spec.PrometheusDefaultName = "" then
        [.Prometheus, .Route, .Service, .ServiceAccount, .ClusterRole, .ClusterRoleBinding]
       else []) ∧
    inDependencyOrder (stepDeletes (prometheusSteps m cr)) ∧
    kindsOf (stepDeletes (alertmanagerSteps m cr)) =
      (if cr.Spec.AlertManagerDefaultName = "" then
        (if !(m.HasAlertmanagerConfigSecret cr).1 && !m.ExternalSyncDisabled cr then [.Secret]
         else []) ++
        [.Alertmanager, .ServiceAccount, .Route, .Service, .ClusterRole, .ClusterRoleBinding]
       else []) ∧
    kindsOf (stepDeletes (grafanaSteps m cr)) =
      (if cr.Spec.GrafanaDefaultName = "" then [.Grafana] else []) ∧
    inDependencyOrder (stepDeletes (grafanaSteps m cr)) ∧
    kindsOf (stepDeletes (promtailSteps m cr)) =
      (if !m.ExternalSyncDisabled cr || !m.ObservatoriumDisabled cr then
        [.ServiceAccount, .ClusterRole, .ClusterRoleBinding]
       else []) ∧
    inDependencyOrder (stepDeletes (promtailSteps m cr)) := by
  refine ⟨?_, ?_, ?_, ?_, ?_, ?_, ?_, ?_⟩
  · rw [(Reconcile_success_deletes c m cr s st hs hok).2.2]
    simp only [migrationSteps, stepDeletes_append]
  · unfold prometheusSteps
    split <;> rfl
  · unfold prometheusSteps
    split
    · simp [inDependencyOrder, stepDeletes, renamed, classBefore, dependencyClass]
    · simp [inDependencyOrder, stepDeletes]
  · unfold alertmanagerSteps
    split
    · split <;> rfl
    · rfl
  · unfold grafanaSteps
    split <;> rfl
  · unfold grafanaSteps
    split
    · simp [inDependencyOrder, stepDeletes, renamed]
    · simp [inDependencyOrder, stepDeletes]
  · unfold promtailSteps
    split <;> rfl
  · unfold promtailSteps
    split
    · simp [inDependencyOrder, stepDeletes, renamed, classBefore, dependencyClass]
    · simp [inDependencyOrder, stepDeletes]

/-- An instance of `migration_delete_order`: the full teardown on a store where every delete
succeeds. -/
theorem migration_delete_order_witness :
    deletesOf (migration.Reconcile okClient sampleModel sampleCr ⟨false⟩
        (World.init ())).world.log =
      stepDeletes (prometheusSteps sampleModel sampleCr) ++
        stepDeletes (alertmanagerSteps sampleModel sampleCr) ++
        stepDeletes (grafanaSteps sampleModel sampleCr) ++
        stepDeletes (promtailSteps sampleModel sampleCr) ∧
    kindsOf (stepDeletes (prometheusSteps sampleModel sampleCr)) =
      [.Prometheus, .Route, .Service, .ServiceAccount, .ClusterRole, .ClusterRoleBinding] ∧
    kindsOf (stepDeletes (alertmanagerSteps sampleModel sampleCr)) =
      [.Secret, .Alertmanager, .ServiceAccount, .Route, .Service, .ClusterRole,
        .ClusterRoleBinding] :=
  have h := migration_delete_order okClient sampleModel sampleCr ⟨false⟩ () rfl (by decide)
  ⟨h.1, h.2.1, h.2.2.2.1⟩

/-- C3, at the failing input: with only Alertmanager to migrate and every delete succeeding,
the tick issues the deletes of the Alertmanager subsystem only; it succeeds and deletes the
legacy Alertmanager service account before the legacy route and service, so the deletes of
the subsystem are not in dependency order. With only Prometheus to migrate, the sibling
block deletes route and service before the service account, in dependency order. -/
theorem alertmanager_delete_order_violated :
    (migration.Reconcile okClient selfContainedModel alertmanagerOnlyCr ⟨false⟩
      (World.init ())).status = .ResultSuccess ∧
    deletesOf (migration.Reconcile okClient selfContainedModel alertmanagerOnlyCr ⟨false⟩
      (World.init ())).world.log =
      [⟨.Alertmanager, "obs", "kafka-alertmanager"⟩,
       ⟨.ServiceAccount, "obs", "kafka-alertmanager"⟩,
       ⟨.Route, "obs", "kafka-alertmanager"⟩,
       ⟨.Service, "obs", "kafka-alertmanager"⟩,
       ⟨.ClusterRole, "", "kafka-alertmanager"⟩,
       ⟨.ClusterRoleBinding, "", "kafka-alertmanager"⟩] ∧
    ¬ inDependencyOrder (deletesOf (migration.Reconcile okClient selfContainedModel
      alertmanagerOnlyCr ⟨false⟩ (World.init ())).world.log) ∧
    deletesOf (migration.Reconcile okClient selfContainedModel prometheusOnlyCr ⟨false⟩
      (World.init ())).world.log =
      [⟨.Prometheus, "obs", "kafka-prometheus"⟩,
       ⟨.Route, "obs", "kafka-prometheus"⟩,
       ⟨.Service, "obs", "kafka-prometheus"⟩,
       ⟨.ServiceAccount, "obs", "kafka-prometheus"⟩,
       ⟨.ClusterRole, "", "kafka-prometheus"⟩,
       ⟨.ClusterRoleBinding, "", "kafka-prometheus"⟩] ∧
    inDependencyOrder (deletesOf (migration.Reconcile okClient selfContainedModel
      prometheusOnlyCr ⟨false⟩ (World.init ())).world.log) := by
  decide

/-! ## Migration gate: the removal checks -/

/-- The migration gate has no in-progress outcome: whatever the store answers, a tick returns
`ResultSuccess` or `ResultFailed`. -/
theorem Reconcile_not_in_progress {σ : Type} (c : Client σ) (m : Model) (cr : Observability)
    (s : ObservabilityStatus) (w : World σ) :
    (migration.Reconcile c m cr s w).status ≠ .ResultInProgress := by
  cases hs : s.Migrated with
  | true => simp [migration.Reconcile, hs]
  | false =>
    rw [Reconcile_eq_steps c m cr s w hs]
    cases h : (execSteps c cr (migrationSteps m cr) w).1 <;> simp [finish, h]

/-- C4, at the failing input: on a store where every delete succeeds and every removal check
still sees an instance, each check reports `ResultInProgress`, and yet the tick on an
unmigrated status deletes the legacy Prometheus service account, cluster role and cluster role
binding after the check, returns `ResultSuccess` and sets `Migrated`. -/
theorem migration_barrier_result_dropped :
    (∀ w : World Unit,
      (WaitForPrometheusToBeRemoved lingeringClient sampleCr w).status = .ResultInProgress) ∧
    (migration.Reconcile lingeringClient sampleModel sampleCr ⟨false⟩
      (World.init ())).world.log.take 7 =
      [⟨.Delete ⟨.Prometheus, "obs", "kafka-prometheus"⟩, none⟩,
       ⟨.List .Prometheus "obs", none⟩,
       ⟨.Delete ⟨.Route, "obs", "kafka-prometheus"⟩, none⟩,
       ⟨.Delete ⟨.Service, "obs", "kafka-prometheus"⟩, none⟩,
       ⟨.Delete ⟨.ServiceAccount, "obs", "kafka-prometheus"⟩, none⟩,
       ⟨.Delete ⟨.ClusterRole, "", "kafka-prometheus"⟩, none⟩,
       ⟨.Delete ⟨.ClusterRoleBinding, "", "kafka-prometheus"⟩, none⟩] ∧
    (migration.Reconcile lingeringClient sampleModel sampleCr ⟨false⟩
      (World.init ())).status = .ResultSuccess ∧
    (migration.Reconcile lingeringClient sampleModel sampleCr ⟨false⟩
      (World.init ())).s.Migrated = true := by
  refine ⟨fun w => rfl, ?_⟩
  decide

/-! ## Not-found tolerance -/

theorem deleteOrFail_eq {σ : Type} (c : Client σ) (cr : Observability)
    (ref : ObjectRef) (rest : List Step) (w : World σ)
    (k k1 : World σ → Outcome σ)
    (hk : ∀ w1, k1 w1 = finishCleanup k (execSteps c cr rest w1)) :
    deleteOrFail c ref w k1 = finishCleanup k (execSteps c cr (.del ref :: rest) w) := by
  simp only [deleteOrFail, execSteps]
  by_cases h : deleteFailed (callDelete c w ref).1 = true
  · simp only [h, if_true]
    cases hr : (callDelete c w ref).1 with
    | none => simp [hr, deleteFailed] at h
    | some e => simp [finishCleanup, hr]
  · simp only [h]
    exact hk _

theorem installation_Cleanup_eq_steps {σ : Type} (c : Client σ) (m : Model)
    (cr : Observability) (w : World σ) :
    prometheus_installation.Cleanup c m cr w =
      finishCleanup (fun w1 => ⟨.ResultSuccess, none, w1⟩)
        (execSteps c cr (installationCleanupSteps m cr) w) := by
  unfold prometheus_installation.Cleanup installationCleanupSteps
  by_cases h : m.DescopedModeEnabled cr = true
  · simp only [h, if_true, List.cons_append, List.nil_append]
    refine deleteOrFail_eq c cr _ _ w _ _ (fun w1 => ?_)
    refine deleteOrFail_eq c cr _ _ _ _ _ (fun w2 => ?_)
    refine deleteOrFail_eq c cr _ _ _ _ _ (fun w3 => ?_)
    refine deleteOrFail_eq c cr _ _ _ _ _ (fun w4 => ?_)
    rfl
  · simp only [h, List.cons_append, List.nil_append, List.append_nil]
    refine deleteOrFail_eq c cr _ _ w _ _ (fun w1 => ?_)
    refine deleteOrFail_eq c cr _ _ _ _ _ (fun w2 => ?_)
    refine deleteOrFail_eq c cr _ _ _ _ _ (fun w3 => ?_)
    rfl

theorem token_Cleanup_eq_steps {σ : Type} (c : Client σ) (m : Model)
    (cr : Observability) (w : World σ) :
    token.Cleanup c m cr w =
      finishCleanup (fun w1 => ⟨.ResultSuccess, none, w1⟩)
        (execSteps c cr (tokenCleanupSteps m cr) w) := by
  unfold token.Cleanup tokenCleanupSteps
  refine deleteOrFail_eq c cr _ _ w _ _ (fun w1 => ?_)
  rfl

/-- On a store whose deletes are answered ok or NotFound, no step aborts the run. -/
theorem execSteps_tolerant {σ : Type} (c : Client σ) (cr : Observability)
    (hc : ∀ x ref e, (c.Delete x ref).1 = some e → IsNotFound e = true)
    (steps : List Step) (w : World σ) :
    (execSteps c cr steps w).1 = none := by
  induction steps generalizing w with
  | nil => rfl
  | cons st rest ih =>
    cases st with
    | del ref =>
      simp only [execSteps]
      have h : deleteFailed (callDelete c w ref).1 = false := by
        simp only [callDelete]
        cases hr : (c.Delete w.state ref).1 with
        | none => rfl
        | some e => simp [deleteFailed, hc _ _ _ hr]
      simp only [h, Bool.false_eq_true, if_false]
      exact ih _
    | wait kind =>
      simp only [execSteps]
      exact ih _

/-- On a store whose deletes are answered ok or NotFound, the deletes logged by a run from
an empty log are exactly the planned ones. -/
theorem execSteps_tolerant_deletes {σ : Type} (c : Client σ) (cr : Observability)
    (hc : ∀ x ref e, (c.Delete x ref).1 = some e → IsNotFound e = true)
    (steps : List Step) (st : σ) :
    deletesOf (execSteps c cr steps (World.init st)).2.log = stepDeletes steps := by
  obtain ⟨evs, hlog, hcase⟩ := execSteps_spec c cr steps (World.init st)
  replace hlog : (execSteps c cr steps (World.init st)).2.log = evs := by
    rw [hlog]; rfl
  rcases hcase with ⟨_, _, h3⟩ | ⟨e1, pre, ref1, h1, _, _, _, _⟩
  · rw [hlog, h3]
  · rw [execSteps_tolerant c cr hc] at h1
    exact Option.noConfusion h1

/-- C5. Not-found tolerance: on a store `c` whose deletes are answered ok or NotFound, the
migration gate (unmigrated status), the installation cleanup and the token cleanup each
return `(ResultSuccess, nil)` and issue the same sequence of deletes as on a store `c0` whose
deletes are all answered ok; the migration gate ends with `Migrated = true`. -/
theorem not_found_tolerance {σ τ : Type} (c : Client σ) (c0 : Client τ) (m : Model)
    (cr : Observability) (s : ObservabilityStatus) (st : σ) (st0 : τ)
    (hs : s.Migrated = false)
    (hc : ∀ x ref e, (c.Delete x ref).1 = some e → IsNotFound e = true)
    (hc0 : ∀ x ref, (c0.Delete x ref).1 = none) :
    ((migration.Reconcile c m cr s (World.init st)).status = .ResultSuccess ∧
     (migration.Reconcile c m cr s (World.init st)).err = none ∧
     (migration.Reconcile c m cr s (World.init st)).s.Migrated = true ∧
     deletesOf (migration.Reconcile c m cr s (World.init st)).world.log =
       deletesOf (migration.Reconcile c0 m cr s (World.init st0)).world.log) ∧
    ((prometheus_installation.Cleanup c m cr (World.init st)).status = .ResultSuccess ∧
     (prometheus_installation.Cleanup c m cr (World.init st)).err = none ∧
     deletesOf (prometheus_installation.Cleanup c m cr (World.init st)).world.log =
       deletesOf (prometheus_installation.Cleanup c0 m cr (World.init st0)).world.log) ∧
    ((token.Cleanup c m cr (World.init st)).status = .ResultSuccess ∧
     (token.Cleanup c m cr (World.init st)).err = none ∧
     deletesOf (token.Cleanup c m cr (World.init st)).world.log =
       deletesOf (token.Cleanup c0 m cr (World.init st0)).world.log) := by
  have hc0' : ∀ x ref e, (c0.Delete x ref).1 = some e → IsNotFound e = true := by
    intro x ref e h
    rw [hc0] at h
    exact Option.noConfusion h
  refine ⟨?_, ?_, ?_⟩
  · rw [Reconcile_eq_steps c m cr s _ hs, Reconcile_eq_steps c0 m cr s _ hs]
    have h1 := execSteps_tolerant c cr hc (migrationSteps m cr) (World.init st)
    have h2 := execSteps_tolerant c0 cr hc0' (migrationSteps m cr) (World.init st0)
    simp only [finish, h1, h2]
    refine ⟨trivial, trivial, trivial, ?_⟩
    rw [execSteps_tolerant_deletes c cr hc, execSteps_tolerant_deletes c0 cr hc0']
  · rw [installation_Cleanup_eq_steps, installation_Cleanup_eq_steps]
    have h1 := execSteps_tolerant c cr hc (installationCleanupSteps m cr) (World.init st)
    have h2 := execSteps_tolerant c0 cr hc0' (installationCleanupSteps m cr) (World.init st0)
    simp only [finishCleanup, h1, h2]
    refine ⟨trivial, trivial, ?_⟩
    rw [execSteps_tolerant_deletes c cr hc, execSteps_tolerant_deletes c0 cr hc0']
  · rw [token_Cleanup_eq_steps, token_Cleanup_eq_steps]
    have h1 := execSteps_tolerant c cr hc (tokenCleanupSteps m cr) (World.init st)
    have h2 := execSteps_tolerant c0 cr hc0' (tokenCleanupSteps m cr) (World.init st0)
    simp only [finishCleanup, h1, h2]
    refine ⟨trivial, trivial, ?_⟩
    rw [execSteps_tolerant_deletes c cr hc, execSteps_tolerant_deletes c0 cr hc0']

/-- Witness of C5: the store with nothing left to delete against the store where every delete
succeeds. -/
theorem not_found_tolerance_witness :
    ((migration.Reconcile emptyClient sampleModel sampleCr ⟨false⟩
        (World.init ())).status = .ResultSuccess ∧
     (migration.Reconcile emptyClient sampleModel sampleCr ⟨false⟩ (World.init ())).err = none ∧
     (migration.Reconcile emptyClient sampleModel sampleCr ⟨false⟩
        (World.init ())).s.Migrated = true ∧
     deletesOf (migration.Reconcile emptyClient sampleModel sampleCr ⟨false⟩
        (World.init ())).world.log =
       deletesOf (migration.Reconcile okClient sampleModel sampleCr ⟨false⟩
        (World.init ())).world.log) ∧
    ((prometheus_installation.Cleanup emptyClient sampleModel sampleCr
        (World.init ())).status = .ResultSuccess ∧
     (prometheus_installation.Cleanup emptyClient sampleModel sampleCr
        (World.init ())).err = none ∧
     deletesOf (prometheus_installation.Cleanup emptyClient sampleModel sampleCr
        (World.init ())).world.log =
       deletesOf (prometheus_installation.Cleanup okClient sampleModel sampleCr
        (World.init ())).world.log) ∧
    ((token.Cleanup emptyClient sampleModel sampleCr (World.init ())).status = .ResultSuccess ∧
     (token.Cleanup emptyClient sampleModel sampleCr (World.init ())).err = none ∧
     deletesOf (token.Cleanup emptyClient sampleModel sampleCr (World.init ())).world.log =
       deletesOf (token.Cleanup okClient sampleModel sampleCr (World.init ())).world.log) :=
  not_found_tolerance emptyClient okClient sampleModel sampleCr ⟨false⟩ () () rfl
    (fun _ _ e h => by
      have he : e = .NotFound := (Option.some.inj h).symm
      rw [he]; rfl)
    (fun _ _ => rfl)

/-! ## Migration gate: restart equivalence over a set store -/

theorem filter_ne_of_not_mem (objs : List ObjectRef) (ref : ObjectRef) (h : ref ∉ objs) :
    (objs.filter fun r => decide (r ≠ ref)) = objs := by
  rw [List.filter_eq_self]
  intro a ha
  have : a ≠ ref := fun hh => h (hh ▸ ha)
  simpa using this

theorem remove_objs (objs : List ObjectRef) (ref : ObjectRef) :
    (SetStore.remove objs ref).2 = objs.filter fun r => decide (r ≠ ref) := by
  unfold SetStore.remove
  split
  · rfl
  · rename_i h
    exact (filter_ne_of_not_mem objs ref h).symm

theorem remove_not_failed (objs : List ObjectRef) (ref : ObjectRef) :
    deleteFailed (SetStore.remove objs ref).1 = false := by
  unfold SetStore.remove
  split <;> rfl

theorem filter_cons_notin (objs : List ObjectRef) (ref : ObjectRef) (D : List ObjectRef) :
    ((objs.filter fun r => decide (r ≠ ref)).filter fun r => decide (r ∉ D)) =
      objs.filter fun r => decide (r ∉ ref :: D) := by
  rw [List.filter_filter]
  congr 1
  funext r
  simp only [List.mem_cons, not_or, Bool.decide_and]
  rw [Bool.and_comm]

theorem stepDeletes_cons_del (ref : ObjectRef) (rest : List Step) :
    stepDeletes (.del ref :: rest) = ref :: stepDeletes rest := rfl

theorem stepDeletes_cons_wait (kind : Kind) (rest : List Step) :
    stepDeletes (.wait kind :: rest) = stepDeletes rest := rfl

/-- Without injected faults every step runs, and the set left is the initial one minus the
planned deletes. -/
theorem execSteps_set_clean (cr : Observability) (steps : List Step) (objs : List ObjectRef)
    (log : List Event) :
    (execSteps setClient cr steps ⟨⟨objs, []⟩, log⟩).1 = none ∧
    (execSteps setClient cr steps ⟨⟨objs, []⟩, log⟩).2.state =
      ⟨objs.filter fun r => decide (r ∉ stepDeletes steps), []⟩ := by
  induction steps generalizing objs log with
  | nil => simp [execSteps, stepDeletes]
  | cons st rest ih =>
    cases st with
    | del ref =>
      have hf : deleteFailed (callDelete setClient ⟨⟨objs, []⟩, log⟩ ref).1 = false :=
        remove_not_failed objs ref
      simp only [execSteps, hf, Bool.false_eq_true, if_false]
      have hw : (callDelete setClient ⟨⟨objs, []⟩, log⟩ ref).2 =
          ⟨⟨objs.filter fun r => decide (r ≠ ref), []⟩,
            log ++ [⟨.Delete ref, (SetStore.remove objs ref).1⟩]⟩ := by
        simp only [callDelete, setClient, remove_objs]
      rw [hw, stepDeletes_cons_del, ← filter_cons_notin]
      exact ih _ _
    | wait kind =>
      simp only [execSteps, stepDeletes_cons_wait]
      have hw : (WaitForRemoved setClient kind cr ⟨⟨objs, []⟩, log⟩).world =
          ⟨⟨objs, []⟩, (WaitForRemoved setClient kind cr ⟨⟨objs, []⟩, log⟩).world.log⟩ := by
        have := WaitForRemoved_state setClient kind cr ⟨⟨objs, []⟩, log⟩
        cases hx : (WaitForRemoved setClient kind cr ⟨⟨objs, []⟩, log⟩).world with
        | mk st lg =>
          rw [hx] at this
          simp only [setClient] at this
          simp [this]
      rw [hw]
      exact ih _ _

/-- Whatever the injected faults, the set left by a run is the initial one minus some of the
planned deletes. -/
theorem execSteps_set_faulty (cr : Observability) (steps : List Step) (objs : List ObjectRef)
    (faults : List (Option Err)) (log : List Event) :
    ∃ D : List ObjectRef, (∀ r ∈ D, r ∈ stepDeletes steps) ∧
      (execSteps setClient cr steps ⟨⟨objs, faults⟩, log⟩).2.state.objs =
        objs.filter fun r => decide (r ∉ D) := by
  induction steps generalizing objs faults log with
  | nil => exact ⟨[], by simp, by simp [execSteps]⟩
  | cons st rest ih =>
    cases st with
    | del ref =>
      have hstate : ∃ f1, ((callDelete setClient ⟨⟨objs, faults⟩, log⟩ ref).2.state =
            ⟨objs, f1⟩ ∨
          (callDelete setClient ⟨⟨objs, faults⟩, log⟩ ref).2.state =
            ⟨objs.filter fun r => decide (r ≠ ref), f1⟩) := by
        simp only [callDelete, setClient]
        match faults with
        | some e :: f => exact ⟨f, Or.inl rfl⟩
        | none :: f => exact ⟨f, Or.inr (by simp only [remove_objs])⟩
        | [] => exact ⟨[], Or.inr (by simp only [remove_objs])⟩
      obtain ⟨f1, hst⟩ := hstate
      simp only [execSteps]
      by_cases hf : deleteFailed (callDelete setClient ⟨⟨objs, faults⟩, log⟩ ref).1 = true
      · simp only [hf, if_true]
        rcases hst with h | h
        · exact ⟨[], by simp, by rw [h]; simp⟩
        · refine ⟨[ref], by simp [stepDeletes_cons_del], ?_⟩
          rw [h]
          simp
      · simp only [hf, Bool.false_eq_true, if_false]
        cases hw : (callDelete setClient ⟨⟨objs, faults⟩, log⟩ ref).2 with
        | mk st1 lg1 =>
          rw [hw] at hst
          simp only at hst
          rcases hst with h | h
          · subst h
            obtain ⟨D, hD, hobjs⟩ := ih objs f1 lg1
            exact ⟨D, fun r hr => by
              rw [stepDeletes_cons_del]; exact List.mem_cons_of_mem _ (hD r hr), hobjs⟩
          · subst h
            obtain ⟨D, hD, hobjs⟩ := ih (objs.filter fun r => decide (r ≠ ref)) f1 lg1
            refine ⟨ref :: D, ?_, ?_⟩
            · intro r hr
              rw [stepDeletes_cons_del]
              rcases List.mem_cons.mp hr with rfl | hmem
              · exact List.mem_cons_self _ _
              · exact List.mem_cons_of_mem _ (hD r hmem)
            · rw [hobjs, filter_cons_notin]
    | wait kind =>
      simp only [execSteps, stepDeletes_cons_wait]
      cases hx : (WaitForRemoved setClient kind cr ⟨⟨objs, faults⟩, log⟩).world with
      | mk st lg =>
        have := WaitForRemoved_state setClient kind cr ⟨⟨objs, faults⟩, log⟩
        rw [hx] at this
        simp only [setClient] at this
        subst this
        exact ih objs faults lg

theorem filter_subset_absorb (objs D S : List ObjectRef) (h : ∀ r ∈ D, r ∈ S) :
    ((objs.filter fun r => decide (r ∉ D)).filter fun r => decide (r ∉ S)) =
      objs.filter fun r => decide (r ∉ S) := by
  rw [List.filter_filter]
  apply List.filter_congr
  intro r _
  by_cases hS : r ∈ S
  · simp [hS]
  · have hD : r ∉ D := fun hh => hS (h r hh)
    simp [hS, hD]

/-- C6. Migration restart equivalence over the set store: when a tick on an unmigrated status
is aborted by a failing delete, `Migrated` is still false, and a following tick without
faults from the store the aborted tick left succeeds and ends with the same object set and
the same status (`Migrated = true`) as one uninterrupted tick without faults from the initial
store. -/
theorem migration_restart_equivalence (m : Model) (cr : Observability)
    (s : ObservabilityStatus) (objs : List ObjectRef) (faults : List (Option Err))
    (hs : s.Migrated = false)
    (habort : (migration.Reconcile setClient m cr s (World.init ⟨objs, faults⟩)).status =
      .ResultFailed) :
    (migration.Reconcile setClient m cr s (World.init ⟨objs, faults⟩)).s.Migrated = false ∧
    (migration.Reconcile setClient m cr
      (migration.Reconcile setClient m cr s (World.init ⟨objs, faults⟩)).s
      (World.init ⟨(migration.Reconcile setClient m cr s
        (World.init ⟨objs, faults⟩)).world.state.objs, []⟩)).status = .ResultSuccess ∧
    (migration.Reconcile setClient m cr s (World.init ⟨objs, []⟩)).status = .ResultSuccess ∧
    (migration.Reconcile setClient m cr
      (migration.Reconcile setClient m cr s (World.init ⟨objs, faults⟩)).s
      (World.init ⟨(migration.Reconcile setClient m cr s
        (World.init ⟨objs, faults⟩)).world.state.objs, []⟩)).world.state.objs =
      (migration.Reconcile setClient m cr s (World.init ⟨objs, []⟩)).world.state.objs ∧
    (migration.Reconcile setClient m cr
      (migration.Reconcile setClient m cr s (World.init ⟨objs, faults⟩)).s
      (World.init ⟨(migration.Reconcile setClient m cr s
        (World.init ⟨objs, faults⟩)).world.state.objs, []⟩)).s =
      (migration.Reconcile setClient m cr s (World.init ⟨objs, []⟩)).s ∧
    (migration.Reconcile setClient m cr s (World.init ⟨objs, []⟩)).s.Migrated = true := by
  have h1 := Reconcile_eq_steps setClient m cr s (World.init ⟨objs, faults⟩) hs
  obtain ⟨D, hD, hobjs⟩ := execSteps_set_faulty cr (migrationSteps m cr) objs faults []
  have hs1 : (migration.Reconcile setClient m cr s (World.init ⟨objs, faults⟩)).s = s := by
    rw [h1]
    rw [h1] at habort
    cases hx : (execSteps setClient cr (migrationSteps m cr) (World.init ⟨objs, faults⟩)).1 with
    | none => simp [finish, hx] at habort
    | some e => simp [finish, hx]
  have hw1 : (migration.Reconcile setClient m cr s (World.init ⟨objs, faults⟩)).world.state.objs
      = objs.filter fun r => decide (r ∉ D) := by
    rw [h1]
    rw [h1] at habort
    cases hx : (execSteps setClient cr (migrationSteps m cr) (World.init ⟨objs, faults⟩)).1 with
    | none => simp [finish, hx] at habort
    | some e =>
      simp only [finish, hx]
      exact hobjs
  rw [hs1, hw1]
  have h2 := Reconcile_eq_steps setClient m cr s
    (World.init ⟨objs.filter fun r => decide (r ∉ D), []⟩) hs
  have h0 := Reconcile_eq_steps setClient m cr s (World.init ⟨objs, []⟩) hs
  have c2 := execSteps_set_clean cr (migrationSteps m cr)
    (objs.filter fun r => decide (r ∉ D)) []
  have c0 := execSteps_set_clean cr (migrationSteps m cr) objs []
  rw [h2, h0]
  simp only [World.init, finish, c2.1, c0.1, c2.2, c0.2]
  refine ⟨hs, trivial, trivial, ?_, trivial, trivial⟩
  exact filter_subset_absorb objs D _ hD

/-- Witness of C6: the third delete of the first tick (the legacy Prometheus service) fails
with a server error. -/
theorem migration_restart_equivalence_witness :
    (migration.Reconcile setClient sampleModel sampleCr ⟨false⟩
      (World.init ⟨legacyObjs, [none, none, some (.Other 500)]⟩)).status = .ResultFailed ∧
    (migration.Reconcile setClient sampleModel sampleCr
      (migration.Reconcile setClient sampleModel sampleCr ⟨false⟩
        (World.init ⟨legacyObjs, [none, none, some (.Other 500)]⟩)).s
      (World.init ⟨(migration.Reconcile setClient sampleModel sampleCr ⟨false⟩
        (World.init ⟨legacyObjs, [none, none, some (.Other 500)]⟩)).world.state.objs,
        []⟩)).world.state.objs =
      (migration.Reconcile setClient sampleModel sampleCr ⟨false⟩
        (World.init ⟨legacyObjs, []⟩)).world.state.objs ∧
    (migration.Reconcile setClient sampleModel sampleCr ⟨false⟩
        (World.init ⟨legacyObjs, []⟩)).world.state.objs = [⟨.Secret, "obs", "unrelated"⟩] :=
  ⟨by decide,
   (migration_restart_equivalence sampleModel sampleCr ⟨false⟩ legacyObjs
      [none, none, some (.Other 500)] rfl (by decide)).2.2.2.1,
   by decide⟩

/-! ## The create-or-update primitive: a single attempt -/

/-- What `CreateOrUpdate` leaves in the log: one Get by the key of the object and at most one
submit after it, whose answer is the error returned. -/
theorem CreateOrUpdate_log {σ : Type} (c : Client σ) (kind : Kind) (obj : Object)
    (f : Object → Object) (w : World σ) :
    ∃ g, (CreateOrUpdate c kind obj f w).2.log = w.log ++ [⟨.Get (obj.ref kind), g⟩] ∨
      ∃ sub, (CreateOrUpdate c kind obj f w).2.log = w.log ++ [⟨.Get (obj.ref kind), g⟩, sub] ∧
        Event.isSubmit sub = true ∧ (CreateOrUpdate c kind obj f w).1 = sub.err := by
  refine ⟨errOf (c.Get w.state (obj.ref kind)).1, ?_⟩
  unfold CreateOrUpdate
  cases hg : (callGet c w (obj.ref kind)).1 with
  | error e =>
    have hg1 : (c.Get w.state (obj.ref kind)).1 = .error e := hg
    simp only [hg]
    by_cases h1 : (!IsNotFound e) = true
    · rw [if_pos h1]
      exact Or.inl (by simp [callGet, hg1])
    · rw [if_neg h1]
      by_cases h2 : (f obj).ref kind ≠ obj.ref kind
      · rw [if_pos h2]
        exact Or.inl (by simp [callGet, hg1])
      · rw [if_neg h2]
        refine Or.inr ⟨⟨.Create ((f obj).ref kind), _⟩, ?_, rfl, rfl⟩
        simp [callCreate, callGet, hg1]
  | ok existing =>
    have hg1 : (c.Get w.state (obj.ref kind)).1 = .ok existing := hg
    simp only [hg]
    by_cases h2 : (f existing).ref kind ≠ obj.ref kind
    · rw [if_pos h2]
      exact Or.inl (by simp [callGet, hg1])
    · rw [if_neg h2]
      by_cases h3 : existing = f existing
      · rw [if_pos h3]
        exact Or.inl (by simp [callGet, hg1])
      · rw [if_neg h3]
        refine Or.inr ⟨⟨.Update ((f existing).ref kind), _⟩, ?_, rfl, rfl⟩
        simp [callUpdate, callGet, hg1]

theorem failedOrSuccess_status {σ : Type} (r : Option Err × World σ) :
    (failedOrSuccess r).err = r.1 ∧ (failedOrSuccess r).world = r.2 ∧
    ((failedOrSuccess r).status = .ResultSuccess ↔ r.1 = none) ∧
    ((failedOrSuccess r).status = .ResultFailed ↔ r.1 ≠ none) := by
  unfold failedOrSuccess
  cases h : r.1 <;> simp [h]

/-! ## Installation stage: the drift guard -/

theorem removePrometheusOperatorResources_failed_first {σ : Type} (c : Client σ) (m : Model)
    (cr : Observability) (w : World σ)
    (h : deleteFailed (c.Delete w.state (staleSubscription m cr)).1 = true) :
    prometheus_installation.removePrometheusOperatorResources c m cr w =
      ((c.Delete w.state (staleSubscription m cr)).1,
        ⟨(c.Delete w.state (staleSubscription m cr)).2,
          w.log ++ [⟨.Delete (staleSubscription m cr),
            (c.Delete w.state (staleSubscription m cr)).1⟩]⟩) := by
  unfold prometheus_installation.removePrometheusOperatorResources
  simp only [callDelete, staleSubscription] at h ⊢
  rw [if_pos h]

theorem removePrometheusOperatorResources_passed_first {σ : Type} (c : Client σ) (m : Model)
    (cr : Observability) (w : World σ)
    (h : deleteFailed (c.Delete w.state (staleSubscription m cr)).1 = false) :
    prometheus_installation.removePrometheusOperatorResources c m cr w =
      ((if deleteFailed (c.Delete (c.Delete w.state (staleSubscription m cr)).2
            (staleCSV m cr)).1 = true
        then (c.Delete (c.Delete w.state (staleSubscription m cr)).2 (staleCSV m cr)).1
        else none),
        ⟨(c.Delete (c.Delete w.state (staleSubscription m cr)).2 (staleCSV m cr)).2,
          w.log ++ [⟨.Delete (staleSubscription m cr),
              (c.Delete w.state (staleSubscription m cr)).1⟩,
            ⟨.Delete (staleCSV m cr),
              (c.Delete (c.Delete w.state (staleSubscription m cr)).2 (staleCSV m cr)).1⟩]⟩) := by
  unfold prometheus_installation.removePrometheusOperatorResources
  simp only [callDelete, staleSubscription, staleCSV] at h ⊢
  rw [if_neg (by simp [h])]
  split <;> simp

theorem reconcileCatalogSource_get_error {σ : Type} (c : Client σ) (m : Model)
    (cr : Observability) (w : World σ) (e : Err)
    (hg : (c.Get w.state (catalogSourceKey m cr)).1 = .error e) (hnf : IsNotFound e = false) :
    prometheus_installation.reconcileCatalogSource c m cr w =
      ⟨.ResultFailed, some e, ⟨(c.Get w.state (catalogSourceKey m cr)).2,
        w.log ++ [⟨.Get (catalogSourceKey m cr), some e⟩]⟩⟩ := by
  unfold prometheus_installation.reconcileCatalogSource
  simp only [callGet, Object.ref, catalogSourceKey] at hg ⊢
  simp only [hg, hnf, errOf]
  rfl

theorem reconcileCatalogSource_found {σ : Type} (c : Client σ) (m : Model)
    (cr : Observability) (w : World σ) (live : Object)
    (hg : (c.Get w.state (catalogSourceKey m cr)).1 = .ok live) :
    prometheus_installation.reconcileCatalogSource c m cr w =
      failedOrSuccess (CreateOrUpdate c .CatalogSource live
        prometheus_installation.catalogSourceMutate
        ⟨(c.Get w.state (catalogSourceKey m cr)).2,
          w.log ++ [⟨.Get (catalogSourceKey m cr), none⟩]⟩) := by
  unfold prometheus_installation.reconcileCatalogSource
  simp only [callGet, Object.ref, catalogSourceKey] at hg ⊢
  simp only [hg, errOf]

theorem reconcileCatalogSource_not_found {σ : Type} (c : Client σ) (m : Model)
    (cr : Observability) (w : World σ) (e : Err)
    (hg : (c.Get w.state (catalogSourceKey m cr)).1 = .error e) (hnf : IsNotFound e = true) :
    prometheus_installation.reconcileCatalogSource c m cr w =
      match (prometheus_installation.removePrometheusOperatorResources c m cr
        ⟨(c.Get w.state (catalogSourceKey m cr)).2,
          w.log ++ [⟨.Get (catalogSourceKey m cr), some e⟩]⟩).1 with
      | some e1 => ⟨.ResultFailed, some e1,
          (prometheus_installation.removePrometheusOperatorResources c m cr
            ⟨(c.Get w.state (catalogSourceKey m cr)).2,
              w.log ++ [⟨.Get (catalogSourceKey m cr), some e⟩]⟩).2⟩
      | none => failedOrSuccess (CreateOrUpdate c .CatalogSource (catalogSourceObject m cr)
          prometheus_installation.catalogSourceMutate
          (prometheus_installation.removePrometheusOperatorResources c m cr
            ⟨(c.Get w.state (catalogSourceKey m cr)).2,
              w.log ++ [⟨.Get (catalogSourceKey m cr), some e⟩]⟩).2) := by
  unfold prometheus_installation.reconcileCatalogSource
  simp only [callGet, Object.ref, catalogSourceKey, catalogSourceObject] at hg ⊢
  simp only [hg, hnf, errOf]
  rfl

theorem deletesOf_of_not_delete (evs : List Event) (h : ∀ ev ∈ evs, Event.isDelete ev = false) :
    deletesOf evs = [] := by
  induction evs with
  | nil => rfl
  | cons ev rest ih =>
    have h1 := h ev (List.mem_cons_self _ _)
    have h2 := ih (fun x hx => h x (List.mem_cons_of_mem _ hx))
    simp only [deletesOf, List.filterMap_cons] at h2 ⊢
    cases hc : ev.call <;> simp_all [Event.isDelete]

theorem isDelete_of_isSubmit (ev : Event) (h : Event.isSubmit ev = true) :
    Event.isDelete ev = false := by
  cases hc : ev.call <;> simp_all [Event.isDelete, Event.isSubmit]

/-- The events `CreateOrUpdate` adds to the log hold no delete. -/
theorem CreateOrUpdate_no_delete {σ : Type} (c : Client σ) (kind : Kind) (obj : Object)
    (f : Object → Object) (w : World σ) :
    ∃ evs, (CreateOrUpdate c kind obj f w).2.log = w.log ++ evs ∧
      (∀ ev ∈ evs, Event.isDelete ev = false) ∧
      (evs.filter Event.isSubmit).length ≤ 1 ∧
      (∀ ev ∈ evs, Event.isSubmit ev = true → (CreateOrUpdate c kind obj f w).1 = ev.err) := by
  obtain ⟨g, h | ⟨sub, h, hsub, herr⟩⟩ := CreateOrUpdate_log c kind obj f w
  · refine ⟨[⟨.Get (obj.ref kind), g⟩], h, ?_, ?_, ?_⟩
    · intro ev hev
      rw [List.mem_singleton.mp hev]; rfl
    · simp [Event.isSubmit]
    · intro ev hev hs
      rw [List.mem_singleton.mp hev] at hs
      simp [Event.isSubmit] at hs
  · refine ⟨[⟨.Get (obj.ref kind), g⟩, sub], h, ?_, ?_, ?_⟩
    · intro ev hev
      rcases List.mem_cons.mp hev with rfl | hmem
      · rfl
      · rw [List.mem_singleton.mp hmem]
        exact isDelete_of_isSubmit sub hsub
    · simp [Event.isSubmit, List.filter_cons]
      split <;> simp
    · intro ev hev hs
      rcases List.mem_cons.mp hev with rfl | hmem
      · simp [Event.isSubmit] at hs
      · rw [List.mem_singleton.mp hmem]
        exact herr

/-- C9. Drift guard of `reconcileCatalogSource`. When the Get of "prometheus-catalogsource" is
answered NotFound, the log starts with that Get and the delete of "prometheus-subscription";
if that delete fails (error other than NotFound) the function returns `ResultFailed` with its
error and issues nothing more; otherwise the delete of "prometheusoperator.0.56.3" follows,
and if it fails the function returns `ResultFailed` with its error and issues nothing more;
otherwise these two are the only deletes, every later call belongs to the apply of the
catalog source, and the outcome is that of this apply. When the Get succeeds the log holds
no delete. When the Get fails otherwise, the function returns `ResultFailed` with that
error after the Get alone. -/
theorem drift_guard {σ : Type} (c : Client σ) (m : Model) (cr : Observability) (st : σ) :
    (∀ e, (c.Get st (catalogSourceKey m cr)).1 = .error e → IsNotFound e = true →
      (prometheus_installation.reconcileCatalogSource c m cr (World.init st)).world.log.take 2 =
        [⟨.Get (catalogSourceKey m cr), some e⟩,
         ⟨.Delete (staleSubscription m cr), (staleSubscriptionAnswer c m cr st).1⟩] ∧
      (deleteFailed (staleSubscriptionAnswer c m cr st).1 = true →
        (prometheus_installation.reconcileCatalogSource c m cr (World.init st)).status =
          .ResultFailed ∧
        (prometheus_installation.reconcileCatalogSource c m cr (World.init st)).err =
          (staleSubscriptionAnswer c m cr st).1 ∧
        (prometheus_installation.reconcileCatalogSource c m cr
          (World.init st)).world.log.length = 2) ∧
      (deleteFailed (staleSubscriptionAnswer c m cr st).1 = false →
        (prometheus_installation.reconcileCatalogSource c m cr
          (World.init st)).world.log.take 3 =
          [⟨.Get (catalogSourceKey m cr), some e⟩,
           ⟨.Delete (staleSubscription m cr), (staleSubscriptionAnswer c m cr st).1⟩,
           ⟨.Delete (staleCSV m cr), (staleCSVAnswer c m cr st).1⟩] ∧
        (deleteFailed (staleCSVAnswer c m cr st).1 = true →
          (prometheus_installation.reconcileCatalogSource c m cr (World.init st)).status =
            .ResultFailed ∧
          (prometheus_installation.reconcileCatalogSource c m cr (World.init st)).err =
            (staleCSVAnswer c m cr st).1 ∧
          (prometheus_installation.reconcileCatalogSource c m cr
            (World.init st)).world.log.length = 3) ∧
        (deleteFailed (staleCSVAnswer c m cr st).1 = false →
          deletesOf (prometheus_installation.reconcileCatalogSource c m cr
            (World.init st)).world.log = [staleSubscription m cr, staleCSV m cr] ∧
          (∀ ev ∈ (prometheus_installation.reconcileCatalogSource c m cr
            (World.init st)).world.log.drop 3, Event.isDelete ev = false) ∧
          prometheus_installation.reconcileCatalogSource c m cr (World.init st) =
            failedOrSuccess (CreateOrUpdate c .CatalogSource (catalogSourceObject m cr)
              prometheus_installation.catalogSourceMutate
              ⟨(staleCSVAnswer c m cr st).2,
                [⟨.Get (catalogSourceKey m cr), some e⟩,
                 ⟨.Delete (staleSubscription m cr), (staleSubscriptionAnswer c m cr st).1⟩,
                 ⟨.Delete (staleCSV m cr), (staleCSVAnswer c m cr st).1⟩]⟩)))) ∧
    (∀ live, (c.Get st (catalogSourceKey m cr)).1 = .ok live →
      ∀ ev ∈ (prometheus_installation.reconcileCatalogSource c m cr (World.init st)).world.log,
        Event.isDelete ev = false) ∧
    (∀ e, (c.Get st (catalogSourceKey m cr)).1 = .error e → IsNotFound e = false →
      (prometheus_installation.reconcileCatalogSource c m cr (World.init st)).status =
        .ResultFailed ∧
      (prometheus_installation.reconcileCatalogSource c m cr (World.init st)).err = some e ∧
      (prometheus_installation.reconcileCatalogSource c m cr (World.init st)).world.log =
        [⟨.Get (catalogSourceKey m cr), some e⟩]) := by
  refine ⟨?_, ?_, ?_⟩
  · intro e hg hnf
    rw [reconcileCatalogSource_not_found c m cr (World.init st) e hg hnf]
    by_cases h1 : deleteFailed (staleSubscriptionAnswer c m cr st).1 = true
    · have h1' := h1
      simp only [staleSubscriptionAnswer] at h1'
      rw [removePrometheusOperatorResources_failed_first c m cr _ h1']
      cases hd : (c.Delete (c.Get st (catalogSourceKey m cr)).2 (staleSubscription m cr)).1 with
      | none => rw [hd] at h1'; exact absurd h1' (by simp [deleteFailed])
      | some e1 =>
        simp only [World.init, hd, staleSubscriptionAnswer, List.nil_append]
        refine ⟨by simp, fun _ => ⟨trivial, trivial, by simp⟩, fun h => ?_⟩
        rw [hd] at h1'
        rw [h1'] at h
        exact Bool.noConfusion h
    · have h1f : deleteFailed (staleSubscriptionAnswer c m cr st).1 = false := by
        simpa using h1
      have h1' := h1f
      simp only [staleSubscriptionAnswer] at h1'
      rw [removePrometheusOperatorResources_passed_first c m cr _ h1']
      by_cases h2 : deleteFailed (staleCSVAnswer c m cr st).1 = true
      · have h2' := h2
        simp only [staleCSVAnswer, staleSubscriptionAnswer] at h2'
        simp only [World.init, h2', if_true, List.nil_append]
        cases hd : (c.Delete (c.Delete (c.Get st (catalogSourceKey m cr)).2
            (staleSubscription m cr)).2 (staleCSV m cr)).1 with
        | none => rw [hd] at h2'; exact absurd h2' (by simp [deleteFailed])
        | some e2 =>
          simp only [staleSubscriptionAnswer, staleCSVAnswer, hd]
          refine ⟨by simp, fun h => ?_, fun _ => ⟨by simp, fun _ => ⟨trivial, trivial, by simp⟩,
            fun h => ?_⟩⟩
          · rw [h1'] at h; exact Bool.noConfusion h
          · rw [hd] at h2'; rw [h2'] at h; exact Bool.noConfusion h
      · have h2f : deleteFailed (staleCSVAnswer c m cr st).1 = false := by
          simpa using h2
        have h2' := h2f
        simp only [staleCSVAnswer, staleSubscriptionAnswer] at h2'
        simp only [World.init, h2', Bool.false_eq_true, if_false, List.nil_append,
          List.cons_append]
        obtain ⟨evs, hlog, hnodel, _, _⟩ := CreateOrUpdate_no_delete c .CatalogSource
          (catalogSourceObject m cr) prometheus_installation.catalogSourceMutate
          ⟨(c.Delete (c.Delete (c.Get st (catalogSourceKey m cr)).2
              (staleSubscription m cr)).2 (staleCSV m cr)).2,
            [⟨.Get (catalogSourceKey m cr), some e⟩,
             ⟨.Delete (staleSubscription m cr),
               (c.Delete (c.Get st (catalogSourceKey m cr)).2 (staleSubscription m cr)).1⟩,
             ⟨.Delete (staleCSV m cr),
               (c.Delete (c.Delete (c.Get st (catalogSourceKey m cr)).2
                 (staleSubscription m cr)).2 (staleCSV m cr)).1⟩]⟩
        simp only [(failedOrSuccess_status _).2.1, staleSubscriptionAnswer, staleCSVAnswer, hlog]
        refine ⟨by simp, fun h => ?_, fun _ => ⟨by simp, fun h => ?_, fun _ => ⟨?_, ?_, trivial⟩⟩⟩
        · rw [h1'] at h; exact Bool.noConfusion h
        · rw [h2'] at h; exact Bool.noConfusion h
        · rw [deletesOf_append, deletesOf_of_not_delete evs hnodel]
          simp [deletesOf]
        · intro ev hev
          simp at hev
          exact hnodel ev hev
  · intro live hg ev hev
    rw [reconcileCatalogSource_found c m cr (World.init st) live hg] at hev
    obtain ⟨evs, hlog, hnodel, _, _⟩ := CreateOrUpdate_no_delete c .CatalogSource live
      prometheus_installation.catalogSourceMutate
      ⟨(c.Get st (catalogSourceKey m cr)).2, [⟨.Get (catalogSourceKey m cr), none⟩]⟩
    simp only [(failedOrSuccess_status _).2.1, World.init, List.nil_append] at hev
    rw [hlog] at hev
    rcases List.mem_append.mp hev with h | h
    · rw [List.mem_singleton.mp h]; rfl
    · exact hnodel ev h
  · intro e hg hnf
    rw [reconcileCatalogSource_get_error c m cr (World.init st) e hg hnf]
    exact ⟨rfl, rfl, rfl⟩

/-- Witness of C9: the catalog source is absent, the stale subscription is deleted, and the
delete of the stale cluster service version fails with a server error. -/
theorem drift_guard_witness :
    (prometheus_installation.reconcileCatalogSource
      (faultyClient ⟨.ClusterServiceVersion, "obs", "prometheusoperator.0.56.3"⟩ (.Other 500))
      sampleModel sampleCr (World.init ())).status = .ResultFailed ∧
    (prometheus_installation.reconcileCatalogSource
      (faultyClient ⟨.ClusterServiceVersion, "obs", "prometheusoperator.0.56.3"⟩ (.Other 500))
      sampleModel sampleCr (World.init ())).err = some (.Other 500) ∧
    (prometheus_installation.reconcileCatalogSource
      (faultyClient ⟨.ClusterServiceVersion, "obs", "prometheusoperator.0.56.3"⟩ (.Other 500))
      sampleModel sampleCr (World.init ())).world.log.length = 3 :=
  ((((drift_guard
    (faultyClient ⟨.ClusterServiceVersion, "obs", "prometheusoperator.0.56.3"⟩ (.Other 500))
    sampleModel sampleCr ()).1 .NotFound rfl rfl).2.2 (by decide)).2.1 (by decide))

/-! ## Applies: a conflict is not retried within the tick -/

theorem isGet_of_isSubmit (ev : Event) (h : Event.isSubmit ev = true) :
    Event.isGet ev = false := by
  cases hc : ev.call <;> simp_all [Event.isGet, Event.isSubmit]

theorem removePrometheusOperatorResources_log {σ : Type} (c : Client σ) (m : Model)
    (cr : Observability) (w : World σ) :
    ∃ dl, (prometheus_installation.removePrometheusOperatorResources c m cr w).2.log =
        w.log ++ dl ∧ ∀ ev ∈ dl, Event.isSubmit ev = false := by
  by_cases h : deleteFailed (c.Delete w.state (staleSubscription m cr)).1 = true
  · rw [removePrometheusOperatorResources_failed_first c m cr w h]
    exact ⟨_, rfl, by simp [Event.isSubmit]⟩
  · rw [removePrometheusOperatorResources_passed_first c m cr w (by simpa using h)]
    exact ⟨_, rfl, by simp [Event.isSubmit]⟩

/-- The submits of `reconcileCatalogSource`: at most one, at the end of the log, and its
answer is the error returned; a returned error always comes with `ResultFailed`. -/
theorem reconcileCatalogSource_submits {σ : Type} (c : Client σ) (m : Model)
    (cr : Observability) (st : σ) :
    ((prometheus_installation.reconcileCatalogSource c m cr (World.init st)).err ≠ none →
      (prometheus_installation.reconcileCatalogSource c m cr (World.init st)).status =
        .ResultFailed) ∧
    ∃ pre evs,
      (prometheus_installation.reconcileCatalogSource c m cr (World.init st)).world.log =
        pre ++ evs ∧
      (∀ ev ∈ pre, Event.isSubmit ev = false) ∧
      (evs.filter Event.isSubmit).length ≤ 1 ∧
      (∀ ev ∈ evs, Event.isSubmit ev = true →
        (prometheus_installation.reconcileCatalogSource c m cr (World.init st)).err =
          ev.err) := by
  cases hg : (c.Get st (catalogSourceKey m cr)).1 with
  | ok live =>
    rw [reconcileCatalogSource_found c m cr (World.init st) live hg]
    obtain ⟨evs, hlog, _, hcount, herr⟩ := CreateOrUpdate_no_delete c .CatalogSource live
      prometheus_installation.catalogSourceMutate
      ⟨(c.Get (World.init st).state (catalogSourceKey m cr)).2,
        (World.init st).log ++ [⟨.Get (catalogSourceKey m cr), none⟩]⟩
    refine ⟨fun h => ((failedOrSuccess_status _).2.2.2).mpr ?_,
      (World.init st).log ++ [⟨.Get (catalogSourceKey m cr), none⟩], evs, ?_, ?_, hcount, ?_⟩
    · rw [← (failedOrSuccess_status _).1]; exact h
    · rw [(failedOrSuccess_status _).2.1]; exact hlog
    · simp [World.init, Event.isSubmit]
    · intro ev hev hs
      rw [(failedOrSuccess_status _).1]
      exact herr ev hev hs
  | error e =>
    cases hnf : IsNotFound e with
    | false =>
      rw [reconcileCatalogSource_get_error c m cr (World.init st) e hg hnf]
      exact ⟨fun _ => rfl, (World.init st).log ++ [⟨.Get (catalogSourceKey m cr), some e⟩], [],
        (List.append_nil _).symm, by simp [World.init, Event.isSubmit], by simp, by simp⟩
    | true =>
      rw [reconcileCatalogSource_not_found c m cr (World.init st) e hg hnf]
      obtain ⟨dl, hdl, hnosub⟩ := removePrometheusOperatorResources_log c m cr
        ⟨(c.Get (World.init st).state (catalogSourceKey m cr)).2,
          (World.init st).log ++ [⟨.Get (catalogSourceKey m cr), some e⟩]⟩
      have hpre : ∀ ev ∈ ((World.init st).log ++ [⟨.Get (catalogSourceKey m cr), some e⟩]) ++ dl,
          Event.isSubmit ev = false := by
        intro ev hev
        rcases List.mem_append.mp hev with h | h
        · simp [World.init] at h
          rw [h]; rfl
        · exact hnosub ev h
      cases hr : (prometheus_installation.removePrometheusOperatorResources c m cr
        ⟨(c.Get (World.init st).state (catalogSourceKey m cr)).2,
          (World.init st).log ++ [⟨.Get (catalogSourceKey m cr), some e⟩]⟩).1 with
      | some e1 =>
        simp only
        exact ⟨fun _ => trivial,
          ((World.init st).log ++ [⟨.Get (catalogSourceKey m cr), some e⟩]) ++ dl, [],
          by rw [hdl, List.append_nil], hpre, by simp, by simp⟩
      | none =>
        simp only
        obtain ⟨evs, hlog, _, hcount, herr⟩ := CreateOrUpdate_no_delete c .CatalogSource
          (catalogSourceObject m cr) prometheus_installation.catalogSourceMutate
          (prometheus_installation.removePrometheusOperatorResources c m cr
            ⟨(c.Get (World.init st).state (catalogSourceKey m cr)).2,
              (World.init st).log ++ [⟨.Get (catalogSourceKey m cr), some e⟩]⟩).2
        refine ⟨fun h => ((failedOrSuccess_status _).2.2.2).mpr ?_,
          ((World.init st).log ++ [⟨.Get (catalogSourceKey m cr), some e⟩]) ++ dl, evs, ?_, hpre,
          hcount, ?_⟩
        · rw [← (failedOrSuccess_status _).1]; exact h
        · rw [(failedOrSuccess_status _).2.1, hlog, hdl]
        · intro ev hev hs
          rw [(failedOrSuccess_status _).1]
          exact herr ev hev hs

theorem isSubmit_of_isGet (ev : Event) (h : Event.isGet ev = true) :
    Event.isSubmit ev = false := by
  cases hc : ev.call <;> simp_all [Event.isGet, Event.isSubmit]

theorem isSubmit_of_isDelete (ev : Event) (h : Event.isDelete ev = true) :
    Event.isSubmit ev = false := by
  cases hc : ev.call <;> simp_all [Event.isDelete, Event.isSubmit]

theorem isGet_of_isDelete (ev : Event) (h : Event.isDelete ev = true) :
    Event.isGet ev = false := by
  cases hc : ev.call <;> simp_all [Event.isDelete, Event.isGet]

/-- A log made of a Get, then deletes, then nothing or a Get with at most one submit after it:
at most two Gets, at most one submit, and a submit is the last event. -/
theorem trace_facts (a : Event) (dl evs : List Event) (ha : Event.isGet a = true)
    (hdl : ∀ ev ∈ dl, Event.isDelete ev = true)
    (hevs : evs = [] ∨ ∃ b, Event.isGet b = true ∧
      (evs = [b] ∨ ∃ sub, evs = [b, sub] ∧ Event.isSubmit sub = true)) :
    ((a :: (dl ++ evs)).filter Event.isGet).length ≤ 2 ∧
    ((a :: (dl ++ evs)).filter Event.isSubmit).length ≤ 1 ∧
    (∀ i ev, (a :: (dl ++ evs))[i]? = some ev → Event.isSubmit ev = true →
      i + 1 = (a :: (dl ++ evs)).length) := by
  have hdlg : dl.filter Event.isGet = [] := by
    rw [List.filter_eq_nil_iff]
    intro ev hev
    simp [isGet_of_isDelete ev (hdl ev hev)]
  have hdls : dl.filter Event.isSubmit = [] := by
    rw [List.filter_eq_nil_iff]
    intro ev hev
    simp [isSubmit_of_isDelete ev (hdl ev hev)]
  have has : Event.isSubmit a = false := isSubmit_of_isGet a ha
  refine ⟨?_, ?_, ?_⟩
  · rw [List.filter_cons, if_pos ha, List.filter_append, hdlg, List.nil_append]
    rcases hevs with rfl | ⟨b, hb, rfl | ⟨sub, rfl, hsub⟩⟩
    · simp
    · simp [List.filter_cons, hb]
    · simp [List.filter_cons, hb, isGet_of_isSubmit sub hsub]
  · rw [List.filter_cons, has, List.filter_append, hdls, List.nil_append]
    rcases hevs with rfl | ⟨b, hb, rfl | ⟨sub, rfl, hsub⟩⟩
    · simp
    · simp [List.filter_cons, isSubmit_of_isGet b hb]
    · simp [List.filter_cons, isSubmit_of_isGet b hb, hsub]
  · intro i ev h hs
    cases i with
    | zero =>
      simp only [List.getElem?_cons_zero, Option.some.injEq] at h
      rw [← h, has] at hs
      exact Bool.noConfusion hs
    | succ j =>
      simp only [List.getElem?_cons_succ] at h
      by_cases hj : j < dl.length
      · rw [List.getElem?_append_left hj] at h
        have hmem := List.getElem?_mem h
        rw [isSubmit_of_isDelete ev (hdl ev hmem)] at hs
        exact Bool.noConfusion hs
      · rw [List.getElem?_append_right (Nat.le_of_not_lt hj)] at h
        rcases hevs with rfl | ⟨b, hb, rfl | ⟨sub, rfl, hsub⟩⟩
        · simp at h
        · cases hk : j - dl.length with
          | zero =>
            rw [hk] at h
            simp only [List.getElem?_cons_zero, Option.some.injEq] at h
            rw [← h, isSubmit_of_isGet b hb] at hs
            exact Bool.noConfusion hs
          | succ k =>
            rw [hk] at h
            simp at h
        · cases hk : j - dl.length with
          | zero =>
            rw [hk] at h
            simp only [List.getElem?_cons_zero, Option.some.injEq] at h
            rw [← h, isSubmit_of_isGet b hb] at hs
            exact Bool.noConfusion hs
          | succ k =>
            rw [hk] at h
            cases k with
            | zero =>
              simp only [List.length_cons, List.length_append, List.length_nil]
              omega
            | succ k2 => simp at h

theorem removePrometheusOperatorResources_deletes {σ : Type} (c : Client σ) (m : Model)
    (cr : Observability) (w : World σ) :
    ∃ dl, (prometheus_installation.removePrometheusOperatorResources c m cr w).2.log =
        w.log ++ dl ∧ (∀ ev ∈ dl, Event.isDelete ev = true) ∧ dl.length ≤ 2 := by
  by_cases h : deleteFailed (c.Delete w.state (staleSubscription m cr)).1 = true
  · rw [removePrometheusOperatorResources_failed_first c m cr w h]
    exact ⟨_, rfl, by simp [Event.isDelete], by simp⟩
  · rw [removePrometheusOperatorResources_passed_first c m cr w (by simpa using h)]
    exact ⟨_, rfl, by simp [Event.isDelete], by simp⟩

/-- The calls of `reconcileCatalogSource` in a tick: the Get of the catalog source, then the
deletes of the drift guard (two at most), then nothing, or the Get of the apply alone, or the
Get of the apply followed by its one submit, whose answer is the error returned. -/
theorem reconcileCatalogSource_shape {σ : Type} (c : Client σ) (m : Model)
    (cr : Observability) (st : σ) :
    ∃ g dl evs,
      (prometheus_installation.reconcileCatalogSource c m cr (World.init st)).world.log =
        ⟨.Get (catalogSourceKey m cr), g⟩ :: (dl ++ evs) ∧
      (∀ ev ∈ dl, Event.isDelete ev = true) ∧ dl.length ≤ 2 ∧
      (evs = [] ∨ ∃ b, Event.isGet b = true ∧
        (evs = [b] ∨ ∃ sub, evs = [b, sub] ∧ Event.isSubmit sub = true ∧
          (prometheus_installation.reconcileCatalogSource c m cr (World.init st)).err =
            sub.err)) := by
  cases hg : (c.Get st (catalogSourceKey m cr)).1 with
  | ok live =>
    rw [reconcileCatalogSource_found c m cr (World.init st) live hg]
    rw [(failedOrSuccess_status _).2.1, (failedOrSuccess_status _).1]
    obtain ⟨g', h | ⟨sub, h, hsub, herr⟩⟩ := CreateOrUpdate_log c .CatalogSource live
      prometheus_installation.catalogSourceMutate
      ⟨(c.Get (World.init st).state (catalogSourceKey m cr)).2,
        (World.init st).log ++ [⟨.Get (catalogSourceKey m cr), none⟩]⟩
    · exact ⟨none, [], [⟨.Get (live.ref .CatalogSource), g'⟩], by rw [h]; rfl, by simp,
        by simp, Or.inr ⟨⟨.Get (live.ref .CatalogSource), g'⟩, rfl, Or.inl rfl⟩⟩
    · exact ⟨none, [], [⟨.Get (live.ref .CatalogSource), g'⟩, sub], by rw [h]; rfl, by simp,
        by simp, Or.inr ⟨⟨.Get (live.ref .CatalogSource), g'⟩, rfl, Or.inr ⟨sub, rfl, hsub, herr⟩⟩⟩
  | error e =>
    cases hnf : IsNotFound e with
    | false =>
      rw [reconcileCatalogSource_get_error c m cr (World.init st) e hg hnf]
      exact ⟨some e, [], [], rfl, by simp, by simp, Or.inl rfl⟩
    | true =>
      rw [reconcileCatalogSource_not_found c m cr (World.init st) e hg hnf]
      obtain ⟨dl, hdl, hdel, hlen⟩ := removePrometheusOperatorResources_deletes c m cr
        ⟨(c.Get (World.init st).state (catalogSourceKey m cr)).2,
          (World.init st).log ++ [⟨.Get (catalogSourceKey m cr), some e⟩]⟩
      cases hr : (prometheus_installation.removePrometheusOperatorResources c m cr
        ⟨(c.Get (World.init st).state (catalogSourceKey m cr)).2,
          (World.init st).log ++ [⟨.Get (catalogSourceKey m cr), some e⟩]⟩).1 with
      | some e1 =>
        simp only
        exact ⟨some e, dl, [], by rw [hdl]; simp [World.init], hdel, hlen, Or.inl rfl⟩
      | none =>
        simp only
        rw [(failedOrSuccess_status _).2.1, (failedOrSuccess_status _).1]
        obtain ⟨g', h | ⟨sub, h, hsub, herr⟩⟩ := CreateOrUpdate_log c .CatalogSource
          (catalogSourceObject m cr) prometheus_installation.catalogSourceMutate
          (prometheus_installation.removePrometheusOperatorResources c m cr
            ⟨(c.Get (World.init st).state (catalogSourceKey m cr)).2,
              (World.init st).log ++ [⟨.Get (catalogSourceKey m cr), some e⟩]⟩).2
        · exact ⟨some e, dl, [⟨.Get ((catalogSourceObject m cr).ref .CatalogSource), g'⟩],
            by rw [h, hdl]; simp [World.init], hdel, hlen,
            Or.inr ⟨⟨.Get ((catalogSourceObject m cr).ref .CatalogSource), g'⟩, rfl, Or.inl rfl⟩⟩
        · exact ⟨some e, dl, [⟨.Get ((catalogSourceObject m cr).ref .CatalogSource), g'⟩, sub],
            by rw [h, hdl]; simp [World.init], hdel, hlen,
            Or.inr ⟨⟨.Get ((catalogSourceObject m cr).ref .CatalogSource), g'⟩, rfl,
              Or.inr ⟨sub, rfl, hsub, herr⟩⟩⟩

/-- An apply `failedOrSuccess (CreateOrUpdate ...)` from an empty log: one Get, at most one
submit, and a submit answered with an error makes the apply return `ResultFailed` with it. -/
theorem apply_once {σ : Type} (c : Client σ) (kind : Kind) (obj : Object)
    (f : Object → Object) (st : σ) :
    ((failedOrSuccess (CreateOrUpdate c kind obj f (World.init st))).world.log.filter
      Event.isGet).length = 1 ∧
    ((failedOrSuccess (CreateOrUpdate c kind obj f (World.init st))).world.log.filter
      Event.isSubmit).length ≤ 1 ∧
    (failedOrSuccess (CreateOrUpdate c kind obj f (World.init st))).world.log.length ≤ 2 ∧
    (∀ ev e, ev ∈ (failedOrSuccess (CreateOrUpdate c kind obj f (World.init st))).world.log →
      Event.isSubmit ev = true → ev.err = some e →
      (failedOrSuccess (CreateOrUpdate c kind obj f (World.init st))).status = .ResultFailed ∧
      (failedOrSuccess (CreateOrUpdate c kind obj f (World.init st))).err = some e) := by
  have hst := failedOrSuccess_status (CreateOrUpdate c kind obj f (World.init st))
  rw [hst.2.1, hst.1]
  obtain ⟨g, h | ⟨sub, h, hsub, herr⟩⟩ := CreateOrUpdate_log c kind obj f (World.init st)
  · rw [h]
    refine ⟨by simp [World.init, Event.isGet], by simp [World.init, Event.isSubmit],
      by simp [World.init], ?_⟩
    intro ev e hev hs _
    simp only [World.init, List.nil_append, List.mem_singleton] at hev
    rw [hev] at hs
    simp [Event.isSubmit] at hs
  · rw [h]
    have hget := isGet_of_isSubmit sub hsub
    have hg0 : Event.isGet ⟨.Get (obj.ref kind), g⟩ = true := rfl
    have hs0 : Event.isSubmit ⟨.Get (obj.ref kind), g⟩ = false := rfl
    refine ⟨by simp [World.init, List.filter_cons, hget, hg0],
      by simp [World.init, List.filter_cons, hsub, hs0], by simp [World.init], ?_⟩
    intro ev e hev hs he
    simp only [World.init, List.nil_append, List.mem_cons, List.mem_singleton,
      List.not_mem_nil, or_false] at hev
    rcases hev with rfl | rfl
    · simp [Event.isSubmit] at hs
    · rw [← herr] at he
      exact ⟨hst.2.2.2.mpr (by rw [he]; simp), he⟩

/-- The order of the calls of an apply from an empty log: the Get by the key of the object
comes first, and a submit is the last call. -/
theorem apply_once_order {σ : Type} (c : Client σ) (kind : Kind) (obj : Object)
    (f : Object → Object) (st : σ) :
    (∃ g, (failedOrSuccess (CreateOrUpdate c kind obj f (World.init st))).world.log[0]? =
      some ⟨.Get (obj.ref kind), g⟩) ∧
    (∀ i ev, (failedOrSuccess (CreateOrUpdate c kind obj f (World.init st))).world.log[i]? =
        some ev → Event.isSubmit ev = true →
      i + 1 = (failedOrSuccess (CreateOrUpdate c kind obj f (World.init st))).world.log.length) := by
  have hst := failedOrSuccess_status (CreateOrUpdate c kind obj f (World.init st))
  rw [hst.2.1]
  obtain ⟨g, h | ⟨sub, h, _, _⟩⟩ := CreateOrUpdate_log c kind obj f (World.init st)
  · rw [h]
    refine ⟨⟨g, by simp [World.init]⟩, ?_⟩
    intro i ev hev hs
    simp only [World.init, List.nil_append] at hev
    cases i with
    | zero =>
      simp only [List.getElem?_cons_zero, Option.some.injEq] at hev
      rw [← hev] at hs
      simp [Event.isSubmit] at hs
    | succ j => simp at hev
  · rw [h]
    refine ⟨⟨g, by simp [World.init]⟩, ?_⟩
    intro i ev hev hs
    simp only [World.init, List.nil_append] at hev ⊢
    cases i with
    | zero =>
      simp only [List.getElem?_cons_zero, Option.some.injEq] at hev
      rw [← hev] at hs
      simp [Event.isSubmit] at hs
    | succ j =>
      cases j with
      | zero => rfl
      | succ k => simp at hev

/-- C7 (amended). Every apply of a stage through the create-or-update primitive is a single
attempt. For any object and mutation, and so for `reconcileSubscription`, the tick's apply
makes exactly one Get, as its first call, and at most one submit, as its last call: two calls
at most. The calls of `reconcileCatalogSource` in a tick are its Get of the catalog source,
then at most two deletes, then nothing or the Get of its one apply with at most one submit
after it: at most two Gets and one submit, the submit being the last call. In each case a
submit answered with an error `e`, a concurrency conflict included, makes the stage return
`(ResultFailed, e)`; as no call follows the submit, nothing is fetched again or re-submitted
in that tick. -/
theorem apply_single_attempt {σ : Type} (c : Client σ) (m : Model) (cr : Observability)
    (kind : Kind) (obj : Object) (f : Object → Object) (st : σ) :
    (((failedOrSuccess (CreateOrUpdate c kind obj f (World.init st))).world.log.filter
        Event.isGet).length = 1 ∧
     ((failedOrSuccess (CreateOrUpdate c kind obj f (World.init st))).world.log.filter
        Event.isSubmit).length ≤ 1 ∧
     (failedOrSuccess (CreateOrUpdate c kind obj f (World.init st))).world.log.length ≤ 2 ∧
     (∃ g, (failedOrSuccess (CreateOrUpdate c kind obj f (World.init st))).world.log[0]? =
       some ⟨.Get (obj.ref kind), g⟩) ∧
     (∀ i ev, (failedOrSuccess (CreateOrUpdate c kind obj f (World.init st))).world.log[i]? =
         some ev → Event.isSubmit ev = true →
       i + 1 =
         (failedOrSuccess (CreateOrUpdate c kind obj f (World.init st))).world.log.length) ∧
     (∀ ev e, ev ∈ (failedOrSuccess (CreateOrUpdate c kind obj f (World.init st))).world.log →
       Event.isSubmit ev = true → ev.err = some e →
       (failedOrSuccess (CreateOrUpdate c kind obj f (World.init st))).status = .ResultFailed ∧
       (failedOrSuccess (CreateOrUpdate c kind obj f (World.init st))).err = some e)) ∧
    (((prometheus_installation.reconcileSubscription c m cr (World.init st)).world.log.filter
        Event.isGet).length = 1 ∧
     ((prometheus_installation.reconcileSubscription c m cr (World.init st)).world.log.filter
        Event.isSubmit).length ≤ 1 ∧
     (prometheus_installation.reconcileSubscription c m cr (World.init st)).world.log.length
        ≤ 2 ∧
     (∃ g, (prometheus_installation.reconcileSubscription c m cr (World.init st)).world.log[0]? =
       some ⟨.Get ((m.GetPrometheusSubscription cr).ref .Subscription), g⟩) ∧
     (∀ i ev, (prometheus_installation.reconcileSubscription c m cr
         (World.init st)).world.log[i]? = some ev → Event.isSubmit ev = true →
       i + 1 =
         (prometheus_installation.reconcileSubscription c m cr (World.init st)).world.log.length) ∧
     (∀ ev e, ev ∈ (prometheus_installation.reconcileSubscription c m cr
         (World.init st)).world.log →
       Event.isSubmit ev = true → ev.err = some e →
       (prometheus_installation.reconcileSubscription c m cr (World.init st)).status =
         .ResultFailed ∧
       (prometheus_installation.reconcileSubscription c m cr (World.init st)).err = some e)) ∧
    ((∃ g dl evs,
       (prometheus_installation.reconcileCatalogSource c m cr (World.init st)).world.log =
         ⟨.Get (catalogSourceKey m cr), g⟩ :: (dl ++ evs) ∧
       (∀ ev ∈ dl, Event.isDelete ev = true) ∧ dl.length ≤ 2 ∧
       (evs = [] ∨ ∃ b, Event.isGet b = true ∧
         (evs = [b] ∨ ∃ sub, evs = [b, sub] ∧ Event.isSubmit sub = true ∧
           (prometheus_installation.reconcileCatalogSource c m cr (World.init st)).err =
             sub.err))) ∧
     ((prometheus_installation.reconcileCatalogSource c m cr (World.init st)).world.log.filter
        Event.isGet).length ≤ 2 ∧
     ((prometheus_installation.reconcileCatalogSource c m cr (World.init st)).world.log.filter
        Event.isSubmit).length ≤ 1 ∧
     (∀ i ev, (prometheus_installation.reconcileCatalogSource c m cr
         (World.init st)).world.log[i]? = some ev → Event.isSubmit ev = true →
       i + 1 =
         (prometheus_installation.reconcileCatalogSource c m cr (World.init st)).world.log.length) ∧
     (∀ ev e, ev ∈ (prometheus_installation.reconcileCatalogSource c m cr
         (World.init st)).world.log →
       Event.isSubmit ev = true → ev.err = some e →
       (prometheus_installation.reconcileCatalogSource c m cr (World.init st)).status =
         .ResultFailed ∧
       (prometheus_installation.reconcileCatalogSource c m cr (World.init st)).err = some e)) := by
  have h1 := apply_once c kind obj f st
  have h1o := apply_once_order c kind obj f st
  have h2 := apply_once c .Subscription (m.GetPrometheusSubscription cr)
    (prometheus_installation.subscriptionMutate m cr) st
  have h2o := apply_once_order c .Subscription (m.GetPrometheusSubscription cr)
    (prometheus_installation.subscriptionMutate m cr) st
  refine ⟨⟨h1.1, h1.2.1, h1.2.2.1, h1o.1, h1o.2, h1.2.2.2⟩,
    ⟨h2.1, h2.2.1, h2.2.2.1, h2o.1, h2o.2, h2.2.2.2⟩, ?_⟩
  obtain ⟨g, dl, evs, hshape, hdel, hlen, hevs⟩ := reconcileCatalogSource_shape c m cr st
  have hevs' : evs = [] ∨ ∃ b, Event.isGet b = true ∧
      (evs = [b] ∨ ∃ sub, evs = [b, sub] ∧ Event.isSubmit sub = true) := by
    rcases hevs with h | ⟨b, hb, h | ⟨sub, h, hsub, _⟩⟩
    · exact Or.inl h
    · exact Or.inr ⟨b, hb, Or.inl h⟩
    · exact Or.inr ⟨b, hb, Or.inr ⟨sub, h, hsub⟩⟩
  have hfacts := trace_facts ⟨.Get (catalogSourceKey m cr), g⟩ dl evs rfl hdel hevs'
  obtain ⟨hfail, pre, evs2, hlog2, hpre2, _, herr2⟩ := reconcileCatalogSource_submits c m cr st
  refine ⟨⟨g, dl, evs, hshape, hdel, hlen, hevs⟩, ?_, ?_, ?_, ?_⟩
  · rw [hshape]; exact hfacts.1
  · rw [hshape]; exact hfacts.2.1
  · rw [hshape]; exact hfacts.2.2
  · intro ev e hev hs he
    rw [hlog2] at hev
    rcases List.mem_append.mp hev with h | h
    · rw [hpre2 ev h] at hs
      exact Bool.noConfusion hs
    · have := herr2 ev h hs
      rw [he] at this
      exact ⟨hfail (by rw [this]; simp), this⟩

/-- Witness of C7 (amended): the first submit is answered with a conflict; it is the second
and last call of `reconcileSubscription`, and the third and last call of
`reconcileCatalogSource`, after the Get of the drift guard and the Get of the apply. -/
theorem apply_single_attempt_witness :
    (prometheus_installation.reconcileSubscription conflictOnceClient sampleModel sampleCr
      (World.init 0)).status = .ResultFailed ∧
    (prometheus_installation.reconcileSubscription conflictOnceClient sampleModel sampleCr
      (World.init 0)).err = some .Conflict ∧
    1 + 1 = (prometheus_installation.reconcileSubscription conflictOnceClient sampleModel
      sampleCr (World.init 0)).world.log.length ∧
    2 + 1 = (prometheus_installation.reconcileCatalogSource conflictOnceClient sampleModel
      sampleCr (World.init 0)).world.log.length :=
  have h := apply_single_attempt conflictOnceClient sampleModel sampleCr .Subscription
    (sampleModel.GetPrometheusSubscription sampleCr)
    (prometheus_installation.subscriptionMutate sampleModel sampleCr) 0
  have hfail := h.2.1.2.2.2.2.2
    ⟨.Update ⟨.Subscription, "obs", "prometheus-subscription"⟩, some .Conflict⟩ .Conflict
    (by decide) rfl rfl
  ⟨hfail.1, hfail.2,
   h.2.1.2.2.2.2.1 1 ⟨.Update ⟨.Subscription, "obs", "prometheus-subscription"⟩, some .Conflict⟩
     (by decide) rfl,
   h.2.2.2.2.2.1 2 ⟨.Update ⟨.CatalogSource, "obs", "prometheus-catalogsource"⟩, some .Conflict⟩
     (by decide) rfl⟩

/-- C7, counterexample: the store answers the first submit with a conflict and would accept
the next one; `reconcileSubscription` returns `(ResultFailed, Conflict)` after one Get and
one Update, without a second fetch or submit, and only the next tick succeeds. -/
theorem apply_conflict_counterexample :
    (prometheus_installation.reconcileSubscription conflictOnceClient sampleModel sampleCr
      (World.init 0)).status = .ResultFailed ∧
    (prometheus_installation.reconcileSubscription conflictOnceClient sampleModel sampleCr
      (World.init 0)).err = some .Conflict ∧
    (prometheus_installation.reconcileSubscription conflictOnceClient sampleModel sampleCr
      (World.init 0)).world.log =
      [⟨.Get ⟨.Subscription, "obs", "prometheus-subscription"⟩, none⟩,
       ⟨.Update ⟨.Subscription, "obs", "prometheus-subscription"⟩, some .Conflict⟩] ∧
    (prometheus_installation.reconcileSubscription conflictOnceClient sampleModel sampleCr
      (World.init (prometheus_installation.reconcileSubscription conflictOnceClient sampleModel
        sampleCr (World.init 0)).world.state)).status = .ResultSuccess := by
  decide

/-! ## Installation stage: the readiness poller -/

theorem operatorReady_iff (items : List ListItem) :
    prometheus_installation.operatorReady items = true ↔
      ∃ d ∈ items, d.Name = "prometheus-operator" ∧ d.ReadyReplicas > 0 := by
  induction items with
  | nil => simp [prometheus_installation.operatorReady]
  | cons d rest ih =>
    unfold prometheus_installation.operatorReady
    by_cases hn : d.Name = "prometheus-operator"
    · by_cases hr : d.ReadyReplicas > 0
      · simp only [hn, hr, if_true]
        exact ⟨fun _ => ⟨d, List.mem_cons_self _ _, hn, hr⟩, fun _ => trivial⟩
      · simp only [hn, hr, if_true, if_false, ih]
        constructor
        · rintro ⟨x, hx, h1, h2⟩
          exact ⟨x, List.mem_cons_of_mem _ hx, h1, h2⟩
        · rintro ⟨x, hx, h1, h2⟩
          rcases List.mem_cons.mp hx with rfl | hmem
          · exact absurd h2 hr
          · exact ⟨x, hmem, h1, h2⟩
    · simp only [hn, if_false, ih]
      constructor
      · rintro ⟨x, hx, h1, h2⟩
        exact ⟨x, List.mem_cons_of_mem _ hx, h1, h2⟩
      · rintro ⟨x, hx, h1, h2⟩
        rcases List.mem_cons.mp hx with rfl | hmem
        · exact absurd h1 hn
        · exact ⟨x, hmem, h1, h2⟩

/-- C8. Readiness poller: `waitForPrometheusOperator` makes exactly one call, the List of the
deployments of the Prometheus operator namespace, and returns at once: `(ResultFailed, err)`
when the List fails with `err`; otherwise no error, with `ResultSuccess` exactly when the
list holds a deployment named "prometheus-operator" with `ReadyReplicas > 0`, and
`ResultInProgress` exactly when it holds none. -/
theorem readiness_poller {σ : Type} (c : Client σ) (m : Model) (cr : Observability)
    (w : World σ) :
    (prometheus_installation.waitForPrometheusOperator c m cr w).world.log =
      w.log ++ [⟨.List .Deployment (m.GetPrometheusOperatorNamespace cr),
        errOf (c.List w.state .Deployment (m.GetPrometheusOperatorNamespace cr)).1⟩] ∧
    (prometheus_installation.waitForPrometheusOperator c m cr w).world.state =
      (c.List w.state .Deployment (m.GetPrometheusOperatorNamespace cr)).2 ∧
    (match (c.List w.state .Deployment (m.GetPrometheusOperatorNamespace cr)).1 with
     | .error e =>
       (prometheus_installation.waitForPrometheusOperator c m cr w).status = .ResultFailed ∧
       (prometheus_installation.waitForPrometheusOperator c m cr w).err = some e
     | .ok items =>
       (prometheus_installation.waitForPrometheusOperator c m cr w).err = none ∧
       ((prometheus_installation.waitForPrometheusOperator c m cr w).status = .ResultSuccess ↔
         ∃ d ∈ items, d.Name = "prometheus-operator" ∧ d.ReadyReplicas > 0) ∧
       ((prometheus_installation.waitForPrometheusOperator c m cr w).status =
           .ResultInProgress ↔
         ¬ ∃ d ∈ items, d.Name = "prometheus-operator" ∧ d.ReadyReplicas > 0)) := by
  unfold prometheus_installation.waitForPrometheusOperator
  simp only [callList]
  cases hl : (c.List w.state .Deployment (m.GetPrometheusOperatorNamespace cr)).1 with
  | error e => exact ⟨rfl, rfl, rfl, rfl⟩
  | ok items =>
    simp only
    rw [← operatorReady_iff]
    cases hr : prometheus_installation.operatorReady items <;> simp [errOf]


/-- Witness of C8: one List call, answered without error, is all the poller issues. -/
theorem readiness_poller_witness :
    (prometheus_installation.waitForPrometheusOperator
      (listingClient [⟨"prometheus-operator", 0⟩, ⟨"other", 3⟩, ⟨"prometheus-operator", 1⟩])
      sampleModel sampleCr (World.init ())).world.log =
      (World.init ()).log ++ [⟨.List .Deployment (sampleModel.GetPrometheusOperatorNamespace
        sampleCr), errOf ((listingClient [⟨"prometheus-operator", 0⟩, ⟨"other", 3⟩,
          ⟨"prometheus-operator", 1⟩]).List (World.init ()).state .Deployment
            (sampleModel.GetPrometheusOperatorNamespace sampleCr)).1⟩] :=
  (readiness_poller
    (listingClient [⟨"prometheus-operator", 0⟩, ⟨"other", 3⟩, ⟨"prometheus-operator", 1⟩])
    sampleModel sampleCr (World.init ())).1

/-- The poller on a listing with an unready and a ready operator deployment, and on one
without a ready operator deployment. -/
theorem waitForPrometheusOperator_examples :
    (prometheus_installation.waitForPrometheusOperator
      (listingClient [⟨"prometheus-operator", 0⟩, ⟨"other", 3⟩, ⟨"prometheus-operator", 1⟩])
      sampleModel sampleCr (World.init ())).status = .ResultSuccess ∧
    (prometheus_installation.waitForPrometheusOperator
      (listingClient [⟨"prometheus-operator", 0⟩, ⟨"other", 3⟩])
      sampleModel sampleCr (World.init ())).status = .ResultInProgress := by
  decide

/-! ## Installation stage: sequencing and readiness convergence -/

theorem waitForPrometheusOperator_success {σ : Type} (c : Client σ) (m : Model)
    (cr : Observability) (w : World σ)
    (h : (prometheus_installation.waitForPrometheusOperator c m cr w).status = .ResultSuccess) :
    prometheus_installation.waitForPrometheusOperator c m cr w =
      ⟨.ResultSuccess, none, (prometheus_installation.waitForPrometheusOperator c m cr w).world⟩ := by
  unfold prometheus_installation.waitForPrometheusOperator at h ⊢
  cases hl : (callList c w .Deployment (m.GetPrometheusOperatorNamespace cr)).1 with
  | error e => simp [hl] at h
  | ok items =>
    simp only [hl] at h ⊢
    cases hr : prometheus_installation.operatorReady items with
    | true => simp
    | false => simp [hr] at h

theorem Reconcile_eq_rest {σ : Type} (c : Client σ) (m : Model)
    (hasOG : World σ → String → Except Err Bool × World σ) (cr : Observability) (w : World σ)
    (hns : m.DescopedModeEnabled cr = true →
      (prometheus_installation.reconcileNamespace c m cr w).status = .ResultSuccess) :
    prometheus_installation.Reconcile c m hasOG cr w =
      prometheus_installation.reconcileRest c m hasOG cr (afterNamespace c m cr w) := by
  unfold prometheus_installation.Reconcile afterNamespace
  by_cases hd : m.DescopedModeEnabled cr = true
  · have h1 := hns hd
    have hst := failedOrSuccess_status
      (CreateOrUpdate c .Namespace (m.GetPrometheusNamespace cr) (fun o => o) w)
    have herr : (prometheus_installation.reconcileNamespace c m cr w).err = none := by
      unfold prometheus_installation.reconcileNamespace at h1 ⊢
      rw [hst.1]
      exact hst.2.2.1.mp h1
    simp only [hd, if_true, herr, ne_eq, not_true_eq_false, if_false]
  · simp only [hd, Bool.false_eq_true, if_false]

theorem Reconcile_namespace_failed {σ : Type} (c : Client σ) (m : Model)
    (hasOG : World σ → String → Except Err Bool × World σ) (cr : Observability) (w : World σ)
    (hd : m.DescopedModeEnabled cr = true)
    (hns : (prometheus_installation.reconcileNamespace c m cr w).status ≠ .ResultSuccess) :
    prometheus_installation.Reconcile c m hasOG cr w =
      prometheus_installation.reconcileNamespace c m cr w := by
  unfold prometheus_installation.Reconcile
  have hst := failedOrSuccess_status
    (CreateOrUpdate c .Namespace (m.GetPrometheusNamespace cr) (fun o => o) w)
  have herr : (prometheus_installation.reconcileNamespace c m cr w).err ≠ none := by
    unfold prometheus_installation.reconcileNamespace at hns ⊢
    rw [hst.1]
    intro h
    exact hns (hst.2.2.1.mpr h)
  simp only [hd, if_true, herr, ne_eq, not_false_eq_true]

/-- Under succeeding prerequisite steps, a tick returns what the readiness check returns. -/
theorem Reconcile_eq_readiness {σ : Type} (c : Client σ) (m : Model)
    (hasOG : World σ → String → Except Err Bool × World σ) (cr : Observability) (w : World σ)
    (h : prerequisitesSucceed c m hasOG cr w) :
    prometheus_installation.Reconcile c m hasOG cr w = readinessCheck c m hasOG cr w := by
  obtain ⟨h0, h1, h2, h3⟩ := h
  rw [Reconcile_eq_rest c m hasOG cr w h0]
  unfold prometheus_installation.reconcileRest readinessCheck afterOperatorgroup
  simp only [afterSubscription, afterCatalogSource] at h1 h2 h3 ⊢
  simp only [h1, h2, h3, ne_eq, not_true_eq_false, if_false]
  by_cases h4 : (prometheus_installation.waitForPrometheusOperator c m cr
      (prometheus_installation.reconcileOperatorgroup c m hasOG cr
        (prometheus_installation.reconcileSubscription c m cr
          (prometheus_installation.reconcileCatalogSource c m cr
            (afterNamespace c m cr w)).world).world).world).status = .ResultSuccess
  · simp only [h4, not_true_eq_false, if_false]
    exact (waitForPrometheusOperator_success c m cr _ h4).symm
  · simp only [h4, not_false_eq_true, if_true]

/-- C10. Readiness convergence of the installation stage. (1) When the namespace (descoped
mode only), catalog-source, subscription and operator-group steps of a tick succeed,
`Reconcile` returns exactly the outcome of `waitForPrometheusOperator`. (2) Hence over
successive ticks: if the prerequisite steps succeed on ticks 0..N and the readiness check
reports `ResultInProgress` on the ticks before N and `ResultSuccess` on tick N, `Reconcile`
returns `ResultInProgress` on the ticks before N and `ResultSuccess` on tick N. (3) The
sub-steps run in the order namespace, catalog source, subscription, operator group, and the
first whose outcome is not `ResultSuccess` ends the tick: `Reconcile` returns that outcome and
the world that sub-step left, so no later sub-step is attempted. -/
theorem readiness_convergence {σ : Type} (c : Client σ) (m : Model)
    (hasOG : World σ → String → Except Err Bool × World σ) (cr : Observability) :
    (∀ w, prerequisitesSucceed c m hasOG cr w →
      prometheus_installation.Reconcile c m hasOG cr w = readinessCheck c m hasOG cr w) ∧
    (∀ st N,
      (∀ k, k ≤ N → prerequisitesSucceed c m hasOG cr
        (World.init (tickState c m hasOG cr st k))) →
      (∀ k, k < N → (readinessCheck c m hasOG cr
        (World.init (tickState c m hasOG cr st k))).status = .ResultInProgress) →
      (readinessCheck c m hasOG cr
        (World.init (tickState c m hasOG cr st N))).status = .ResultSuccess →
      (∀ k, k < N → (prometheus_installation.Reconcile c m hasOG cr
        (World.init (tickState c m hasOG cr st k))).status = .ResultInProgress) ∧
      (prometheus_installation.Reconcile c m hasOG cr
        (World.init (tickState c m hasOG cr st N))).status = .ResultSuccess) ∧
    (∀ w, m.DescopedModeEnabled cr = true →
      (prometheus_installation.reconcileNamespace c m cr w).status ≠ .ResultSuccess →
      prometheus_installation.Reconcile c m hasOG cr w =
        prometheus_installation.reconcileNamespace c m cr w) ∧
    (∀ w, (m.DescopedModeEnabled cr = true →
        (prometheus_installation.reconcileNamespace c m cr w).status = .ResultSuccess) →
      (prometheus_installation.reconcileCatalogSource c m cr
        (afterNamespace c m cr w)).status ≠ .ResultSuccess →
      prometheus_installation.Reconcile c m hasOG cr w =
        prometheus_installation.reconcileCatalogSource c m cr (afterNamespace c m cr w)) ∧
    (∀ w, (m.DescopedModeEnabled cr = true →
        (prometheus_installation.reconcileNamespace c m cr w).status = .ResultSuccess) →
      (prometheus_installation.reconcileCatalogSource c m cr
        (afterNamespace c m cr w)).status = .ResultSuccess →
      (prometheus_installation.reconcileSubscription c m cr
        (afterCatalogSource c m cr w)).status ≠ .ResultSuccess →
      prometheus_installation.Reconcile c m hasOG cr w =
        prometheus_installation.reconcileSubscription c m cr (afterCatalogSource c m cr w)) ∧
    (∀ w, (m.DescopedModeEnabled cr = true →
        (prometheus_installation.reconcileNamespace c m cr w).status = .ResultSuccess) →
      (prometheus_installation.reconcileCatalogSource c m cr
        (afterNamespace c m cr w)).status = .ResultSuccess →
      (prometheus_installation.reconcileSubscription c m cr
        (afterCatalogSource c m cr w)).status = .ResultSuccess →
      (prometheus_installation.reconcileOperatorgroup c m hasOG cr
        (afterSubscription c m cr w)).status ≠ .ResultSuccess →
      prometheus_installation.Reconcile c m hasOG cr w =
        prometheus_installation.reconcileOperatorgroup c m hasOG cr
          (afterSubscription c m cr w)) := by
  refine ⟨fun w h => Reconcile_eq_readiness c m hasOG cr w h, ?_,
    fun w hd hns => Reconcile_namespace_failed c m hasOG cr w hd hns, ?_, ?_, ?_⟩
  · intro st N hpre hprog hdone
    refine ⟨fun k hk => ?_, ?_⟩
    · rw [Reconcile_eq_readiness c m hasOG cr _ (hpre k (Nat.le_of_lt hk))]
      exact hprog k hk
    · rw [Reconcile_eq_readiness c m hasOG cr _ (hpre N (Nat.le_refl N))]
      exact hdone
  · intro w h0 h1
    rw [Reconcile_eq_rest c m hasOG cr w h0]
    unfold prometheus_installation.reconcileRest
    simp only [h1, ne_eq, not_false_eq_true, if_true]
  · intro w h0 h1 h2
    rw [Reconcile_eq_rest c m hasOG cr w h0]
    unfold prometheus_installation.reconcileRest
    simp only [afterCatalogSource] at h2 ⊢
    simp only [h1, h2, ne_eq, not_true_eq_false, not_false_eq_true, if_true, if_false]
  · intro w h0 h1 h2 h3
    rw [Reconcile_eq_rest c m hasOG cr w h0]
    unfold prometheus_installation.reconcileRest
    simp only [afterSubscription, afterCatalogSource] at h2 h3 ⊢
    simp only [h1, h2, h3, ne_eq, not_true_eq_false, not_false_eq_true, if_true, if_false]

/-- Witness of C10: the operator deployment is listed ready from the third tick on; the first
two ticks are in progress and the third succeeds. -/
theorem readiness_convergence_witness :
    (∀ k, k < 2 → (prometheus_installation.Reconcile warmupClient sampleModel
      operatorGroupPresent sampleCr (World.init (tickState warmupClient sampleModel
        operatorGroupPresent sampleCr 0 k))).status = .ResultInProgress) ∧
    (prometheus_installation.Reconcile warmupClient sampleModel operatorGroupPresent sampleCr
      (World.init (tickState warmupClient sampleModel operatorGroupPresent sampleCr 0 2))).status
      = .ResultSuccess :=
  (readiness_convergence warmupClient sampleModel operatorGroupPresent sampleCr).2.1 0 2
    (by decide) (by decide) (by decide)

/-! ## Configuration stage: the Grafana mutation -/

/-- The mutation replaces the specification of the object by the desired one, whatever the
object carried before, and leaves its namespace and name. -/
theorem grafanaMutate_eq (g : GrafanaModel) (cr : Observability)
    (indexes : List RepositoryIndex) (live : Object) :
    configuration.grafanaMutate g cr indexes live =
      { live with Spec := .GrafanaSpec (desiredGrafanaSpec g cr indexes) } := by
  unfold configuration.grafanaMutate desiredGrafanaSpec
  cases ht : g.Tolerations cr <;> cases ha : g.Affinity cr <;>
    simp [configuration.setDeployment, configuration.grafanaSpecLiteral]

/-- The apply on a live object that already carries the desired specification: the Get alone,
no submit, no error. -/
theorem reconcileGrafanaCr_unchanged {σ : Type} (c : Client σ) (m : Model) (g : GrafanaModel)
    (cr : Observability) (indexes : List RepositoryIndex) (st : σ) (live : Object)
    (hg : (c.Get st (grafanaKey m cr)).1 = .ok live)
    (hkey : live.ref .Grafana = grafanaKey m cr)
    (hspec : live.Spec = .GrafanaSpec (desiredGrafanaSpec g cr indexes)) :
    configuration.reconcileGrafanaCr c m g cr indexes (World.init st) =
      (none, ⟨(c.Get st (grafanaKey m cr)).2, [⟨.Get (grafanaKey m cr), none⟩]⟩) := by
  have hfix : live = configuration.grafanaMutate g cr indexes live := by
    rw [grafanaMutate_eq, ← hspec]
  have hkey' : (configuration.grafanaMutate g cr indexes live).ref .Grafana =
      grafanaKey m cr := by
    rw [← hfix]; exact hkey
  unfold configuration.reconcileGrafanaCr CreateOrUpdate
  simp only [callGet, World.init, Object.ref, grafanaKey] at hg hkey' ⊢
  simp only [hg, hkey', ne_eq, not_true_eq_false, if_false, errOf, List.nil_append]
  rw [if_pos hfix]

/-- The apply on a live object whose specification differs from the desired one: after the
Get, one Update of the object with the desired specification. -/
theorem reconcileGrafanaCr_restores {σ : Type} (c : Client σ) (m : Model) (g : GrafanaModel)
    (cr : Observability) (indexes : List RepositoryIndex) (st : σ) (live : Object)
    (hg : (c.Get st (grafanaKey m cr)).1 = .ok live)
    (hkey : live.ref .Grafana = grafanaKey m cr)
    (hspec : live.Spec ≠ .GrafanaSpec (desiredGrafanaSpec g cr indexes)) :
    configuration.reconcileGrafanaCr c m g cr indexes (World.init st) =
      callUpdate c ⟨(c.Get st (grafanaKey m cr)).2, [⟨.Get (grafanaKey m cr), none⟩]⟩ .Grafana
        { live with Spec := .GrafanaSpec (desiredGrafanaSpec g cr indexes) } := by
  have hne : live ≠ configuration.grafanaMutate g cr indexes live := by
    intro h
    rw [grafanaMutate_eq] at h
    exact hspec (congrArg Object.Spec h)
  have hkey' : (configuration.grafanaMutate g cr indexes live).ref .Grafana =
      grafanaKey m cr := by
    rw [grafanaMutate_eq]; exact hkey
  unfold configuration.reconcileGrafanaCr CreateOrUpdate
  simp only [callGet, World.init, Object.ref, grafanaKey] at hg hkey' ⊢
  simp only [hg, hkey', ne_eq, not_true_eq_false, if_false, errOf, List.nil_append]
  rw [if_neg hne, grafanaMutate_eq]

/-- C11. Idempotence and drift restoration of the Grafana mutation. For every desired
specification `cr` and repository indexes, the mutate closure of `reconcileGrafanaCr` gives
the object the specification `desiredGrafanaSpec g cr indexes`, a function of `cr` and the
indexes only, and keeps its namespace and name; its result does not depend on the
specification the object carried before, so a live object whose specification was modified
from outside is mapped to the same object; applying it twice gives what applying it once
gives. At the apply: when the fetched object is one the mutation was already applied to, the
apply is a no-op (the Get alone, no submit, no error); when the fetched object carries
another specification, the apply submits one Update of that object with the desired
specification. -/
theorem grafana_mutation_idempotent (m : Model) (g : GrafanaModel) (cr : Observability)
    (indexes : List RepositoryIndex) :
    (∀ live : Object, configuration.grafanaMutate g cr indexes live =
      { live with Spec := .GrafanaSpec (desiredGrafanaSpec g cr indexes) }) ∧
    (∀ (live : Object) (prior : Spec),
      configuration.grafanaMutate g cr indexes { live with Spec := prior } =
        configuration.grafanaMutate g cr indexes live) ∧
    (∀ live : Object,
      configuration.grafanaMutate g cr indexes (configuration.grafanaMutate g cr indexes live) =
        configuration.grafanaMutate g cr indexes live) ∧
    (∀ (σ : Type) (c : Client σ) (st : σ) (live : Object),
      (c.Get st (grafanaKey m cr)).1 = .ok (configuration.grafanaMutate g cr indexes live) →
      live.ref .Grafana = grafanaKey m cr →
      configuration.reconcileGrafanaCr c m g cr indexes (World.init st) =
        (none, ⟨(c.Get st (grafanaKey m cr)).2, [⟨.Get (grafanaKey m cr), none⟩]⟩)) ∧
    (∀ (σ : Type) (c : Client σ) (st : σ) (live : Object),
      (c.Get st (grafanaKey m cr)).1 = .ok live →
      live.ref .Grafana = grafanaKey m cr →
      live.Spec ≠ .GrafanaSpec (desiredGrafanaSpec g cr indexes) →
      configuration.reconcileGrafanaCr c m g cr indexes (World.init st) =
        callUpdate c ⟨(c.Get st (grafanaKey m cr)).2, [⟨.Get (grafanaKey m cr), none⟩]⟩
          .Grafana { live with Spec := .GrafanaSpec (desiredGrafanaSpec g cr indexes) }) := by
  refine ⟨fun live => grafanaMutate_eq g cr indexes live, ?_, ?_, ?_, ?_⟩
  · intro live prior
    rw [grafanaMutate_eq, grafanaMutate_eq]
  · intro live
    rw [grafanaMutate_eq g cr indexes (configuration.grafanaMutate g cr indexes live),
      grafanaMutate_eq]
  · intro σ c st live hg hkey
    refine reconcileGrafanaCr_unchanged c m g cr indexes st _ hg ?_ ?_
    · rw [grafanaMutate_eq]; exact hkey
    · rw [grafanaMutate_eq]
  · intro σ c st live hg hkey hspec
    exact reconcileGrafanaCr_restores c m g cr indexes st live hg hkey hspec

/-- Witness of C11: on a store holding the already applied Grafana object the apply is the Get
alone; on a store holding the object with a modified specification the apply is the Get and
one Update of the object with the desired specification. -/
theorem grafana_mutation_idempotent_witness :
    configuration.reconcileGrafanaCr (holdingClient appliedGrafana) sampleModel
        sampleGrafanaModel sampleCr [] (World.init ()) =
      (none, ⟨((holdingClient appliedGrafana).Get () (grafanaKey sampleModel sampleCr)).2,
        [⟨.Get (grafanaKey sampleModel sampleCr), none⟩]⟩) ∧
    configuration.reconcileGrafanaCr (holdingClient driftedGrafana) sampleModel
        sampleGrafanaModel sampleCr [] (World.init ()) =
      callUpdate (holdingClient driftedGrafana)
        ⟨((holdingClient driftedGrafana).Get () (grafanaKey sampleModel sampleCr)).2,
          [⟨.Get (grafanaKey sampleModel sampleCr), none⟩]⟩ .Grafana
        { driftedGrafana with
          Spec := .GrafanaSpec (desiredGrafanaSpec sampleGrafanaModel sampleCr []) } :=
  ⟨(grafana_mutation_idempotent sampleModel sampleGrafanaModel sampleCr []).2.2.2.1 Unit
      (holdingClient appliedGrafana) () ⟨"obs", "grafana", .Other []⟩ rfl rfl,
   (grafana_mutation_idempotent sampleModel sampleGrafanaModel sampleCr []).2.2.2.2 Unit
      (holdingClient driftedGrafana) () driftedGrafana rfl rfl (by decide)⟩

/-- The two applies of the witness, evaluated: the log of the first holds the Get alone, the
log of the second the Get and the Update, and the mutation maps the modified object to the
applied one. -/
theorem reconcileGrafanaCr_examples :
    (configuration.reconcileGrafanaCr (holdingClient appliedGrafana) sampleModel
        sampleGrafanaModel sampleCr [] (World.init ())).2.log =
      [⟨.Get ⟨.Grafana, "obs", "grafana"⟩, none⟩] ∧
    (configuration.reconcileGrafanaCr (holdingClient driftedGrafana) sampleModel
        sampleGrafanaModel sampleCr [] (World.init ())).2.log =
      [⟨.Get ⟨.Grafana, "obs", "grafana"⟩, none⟩, ⟨.Update ⟨.Grafana, "obs", "grafana"⟩, none⟩] ∧
    configuration.grafanaMutate sampleGrafanaModel sampleCr [] driftedGrafana = appliedGrafana ∧
    driftedGrafana ≠ appliedGrafana := by
  decide

end ObsOperator
